import Mathlib

/-!
Shallow embedding of the order-and-inventory transaction engine of the
procurement marketplace backend (`procurement_supply`), transcribed from
`models.py`, `views.py`, `serializers.py` and `permissions.py`.

Modelling conventions:
* Django `DecimalField` prices are embedded as exact rationals `ℚ`.
* `PositiveIntegerField` quantities are embedded as `Nat`.
* The relational store is an explicit record of rows (`DBState`); Django's
  `Model.save()` writes the whole row back by primary key (`DBState.saveStock`).
* Request payload scalars arrive as dynamically typed JSON values (`PyVal`);
  Python comparisons that raise `TypeError` at runtime are embedded as the
  `Verdict.exn` outcome.
* Each view method becomes a function `DBState → args → Verdict × DBState`;
  `Verdict.ok` is a 2xx response, `Verdict.rejected msg` is a structured 4xx
  response (state unchanged), `Verdict.exn` is an uncaught exception (state
  unchanged, the framework turns it into a 500).
-/

namespace ProcurementSupply

/-- A scalar value of a JSON request payload, with Python dynamic typing:
integers, booleans, strings and null. -/
inductive PyVal where
  | pyInt (n : Int)
  | pyBool (b : Bool)
  | pyStr (s : String)
  | pyNone
  deriving DecidableEq, Repr

/-- Python truthiness of a payload scalar (`if request.data.get("x")`). -/
def PyVal.truthy : PyVal → Bool
  | .pyInt n => n != 0
  | .pyBool b => b
  | .pyStr s => s != ""
  | .pyNone => false

/-- The Python expression `v <= 0`.  An `int` or `bool` compares with `0`
(`bool` is an `int` subclass, `True = 1`, `False = 0`); comparing a string or
`None` with an integer raises `TypeError`. -/
def PyVal.leZero : PyVal → Except String Bool
  | .pyInt n => .ok (decide (n ≤ 0))
  | .pyBool b => .ok (!b)
  | .pyStr _ => .error "TypeError"
  | .pyNone => .error "TypeError"

/-- The Python check `type(v) == int` (`bool` is its own type, so it fails). -/
def PyVal.isIntType : PyVal → Bool
  | .pyInt _ => true
  | _ => false

/-- The integer carried by a `pyInt` (0 for everything else). -/
def PyVal.toIntVal : PyVal → Int
  | .pyInt n => n
  | _ => 0

/-- `Supplier` row (`models.py`): owned by one user, with the
`order_status` gate (`accepting_orders` in the spec's vocabulary). -/
structure Supplier where
  id : Nat
  user : Nat
  order_status : Bool
  deriving DecidableEq, Repr

/-- `Stock` row (`models.py`): a listing of a product at a supplier with an
exact decimal price and an on-hand quantity. -/
structure Stock where
  id : Nat
  supplier : Nat
  price : ℚ
  quantity : Nat
  deriving DecidableEq, Repr

/-- `CartPosition` row (`models.py`): a line of a shopping cart, with a price
snapshot taken from the stock. -/
structure CartPosition where
  id : Nat
  shopping_cart : Nat
  stock : Nat
  quantity : Nat
  price : ℚ
  deriving DecidableEq, Repr

/-- `ChainStore` row (`models.py`): a delivery destination of a purchaser. -/
structure ChainStore where
  id : Nat
  purchaser : Nat
  deriving DecidableEq, Repr

/-- `Order` row (`models.py`): status is the string `"saved"` or
`"cancelled"` (the `ORDER_CHOICES` pair). -/
structure Order where
  id : Nat
  purchaser : Nat
  chain_store : Nat
  status : String
  deriving DecidableEq, Repr

/-- `OrderPosition` row (`models.py`): a line of an order with a price
snapshot and the two fulfilment flags. -/
structure OrderPosition where
  id : Nat
  order : Nat
  stock : Nat
  quantity : Nat
  price : ℚ
  confirmed : Bool
  delivered : Bool
  deriving DecidableEq, Repr

/-- The relational store as seen by the transaction engine: one list of rows
per table, plus `seq`, the auto-increment primary-key counter used for newly
inserted rows. -/
structure DBState where
  suppliers : List Supplier
  stocks : List Stock
  cart_positions : List CartPosition
  chain_stores : List ChainStore
  orders : List Order
  order_positions : List OrderPosition
  seq : Nat
  deriving DecidableEq, Repr

/-- `Stock.objects.get(id=sid)` / `.filter(id=sid).first()`. -/
def DBState.findStock (st : DBState) (sid : Nat) : Option Stock :=
  st.stocks.find? (fun s => s.id == sid)

/-- `Supplier.objects.get(id=sid)`. -/
def DBState.findSupplier (st : DBState) (sid : Nat) : Option Supplier :=
  st.suppliers.find? (fun s => s.id == sid)

/-- `CartPosition.objects.get(id=pid)`. -/
def DBState.findCartPosition (st : DBState) (pid : Nat) : Option CartPosition :=
  st.cart_positions.find? (fun p => p.id == pid)

/-- `ChainStore.objects.get(id=cid)`. -/
def DBState.findChainStore (st : DBState) (cid : Nat) : Option ChainStore :=
  st.chain_stores.find? (fun c => c.id == cid)

/-- `Order.objects.get(id=oid)`. -/
def DBState.findOrder (st : DBState) (oid : Nat) : Option Order :=
  st.orders.find? (fun o => o.id == oid)

/-- `OrderPosition.objects.get(id=pid)`. -/
def DBState.findOrderPosition (st : DBState) (pid : Nat) : Option OrderPosition :=
  st.order_positions.find? (fun p => p.id == pid)

/-- `stock.save()`: write the in-memory `Stock` row back to the store by
primary key. -/
def DBState.saveStock (st : DBState) (s : Stock) : DBState :=
  { st with stocks := st.stocks.map (fun t => if t.id == s.id then s else t) }

/-- The loop body `stock = Stock.objects.get(id=...); stock.quantity += qty;
stock.save()` used by cart-position delete, cart clear and order cancel.
By foreign-key integrity the referenced stock row always exists; a missing
row is embedded as a no-op. -/
def DBState.restock (st : DBState) (sid qty : Nat) : DBState :=
  match st.findStock sid with
  | some s => st.saveStock { s with quantity := s.quantity + qty }
  | Option.none => st

/-- Iterated `restock` over `(stock id, quantity)` pairs. -/
def DBState.restockAll (st : DBState) (items : List (Nat × Nat)) : DBState :=
  items.foldl (fun acc it => acc.restock it.1 it.2) st

/-- Outcome of one view-method call.  `ok` is a 2xx response, `rejected` a
structured 4xx response with its reason, `exn` an uncaught Python exception
(the framework answers 500 with no structured reason). -/
inductive Verdict where
  | ok
  | rejected (msg : String)
  | exn (msg : String)
  deriving DecidableEq, Repr

/-- The store after a successful cart add: the stock row saved with `qn`
units removed, and the new position (with the price snapshot) appended under
the next primary key. -/
def cartAddSuccessState (st : DBState) (c s : Nat) (stock : Stock)
    (qn : Nat) : DBState :=
  let st1 := st.saveStock { stock with quantity := stock.quantity - qn }
  { st1 with
    cart_positions := st1.cart_positions ++
      [{ id := st1.seq, shopping_cart := c, stock := s,
         quantity := qn, price := stock.price }],
    seq := st1.seq + 1 }

/-- `CartPositionViewSet.create` (`views.py` 836-882), for a request by a
purchaser whose shopping cart is `cartId` (the view resolves
`request.user.purchaser.shopping_cart`; the purchaser-exists guard is outside
this model).  `stockVal` is the payload field `stock` (`Option.none` when absent
or falsy), `quantityVal` the payload field `quantity`. -/
def CartPositionViewSet.create (st : DBState) (cartId : Nat)
    (stockVal : Option Nat) (quantityVal : PyVal) : Verdict × DBState :=
  match stockVal with
  | Option.none => (.rejected "Fields stock and quantity are required", st)
  | some stockId =>
    if !quantityVal.truthy then
      (.rejected "Fields stock and quantity are required", st)
    else if st.cart_positions.any
        (fun p => p.stock == stockId && p.shopping_cart == cartId) then
      (.rejected "You already have this product in your cart", st)
    else
      match st.findStock stockId with
      | Option.none => (.exn "Stock matching query does not exist", st)
      | some stock =>
        match st.findSupplier stock.supplier with
        | Option.none => (.exn "Supplier matching query does not exist", st)
        | some sup =>
          if !sup.order_status then
            (.rejected "This supplier does not take new orders at the moment", st)
          else
            match quantityVal.leZero with
            | .error e => (.exn e, st)
            | .ok le =>
              if le || !quantityVal.isIntType then
                (.rejected "Ensure this value is integer and greater than 0.", st)
              else
                let q : Int := quantityVal.toIntVal
                if (stock.quantity : Int) < q then
                  (.rejected "Not enough stock", st)
                else
                  (.ok, cartAddSuccessState st cartId stockId stock q.toNat)

/-- A serializer write-back: map a row update over the cart positions. -/
def mapWriteBack (st : DBState)
    (f : CartPosition → CartPosition) : DBState :=
  { st with cart_positions := st.cart_positions.map f }

/-- The serializer write-back of `super().update` on the decreasing branch
of `CartPositionViewSet.update`: only `quantity` is written. -/
def cartQuantityWriteBack (st : DBState) (posId q : Nat) : DBState :=
  let f := fun p : CartPosition =>
    if p.id == posId then { p with quantity := q } else p
  { st with cart_positions := st.cart_positions.map f }

/-- The serializer write-back of `super().update` on the increasing branch
of `CartPositionViewSet.update`: the view has put `stock.price` into
`request.data["price"]` and `price` is a writable serializer field, so both
`quantity` and `price` are written. -/
def cartQuantityPriceWriteBack (st : DBState) (posId q : Nat) (price : ℚ) :
    DBState :=
  let f := fun p : CartPosition =>
    if p.id == posId then { p with quantity := q, price := price } else p
  { st with cart_positions := st.cart_positions.map f }

/-- `CartPositionViewSet.update` (`views.py` 895-942).  `scGiven`, `stGiven`
and `prGiven` record whether the payload carries a truthy `shopping_cart`,
`stock` or `price` field; `quantityVal` is the payload field `quantity`
(`Option.none` when the key is absent).  On the increasing branch the view
writes `request.data["price"] = stock.price`, and `price` is a writable field
of `CartPositionSerializer`, so the serializer updates the row's price. -/
def CartPositionViewSet.update (st : DBState) (posId : Nat)
    (scGiven stGiven prGiven : Bool) (quantityVal : Option PyVal) :
    Verdict × DBState :=
  if scGiven || stGiven || prGiven then
    (.rejected "Only quantity field may be amended", st)
  else
    match quantityVal with
    | Option.none => (.ok, st)
    | some qv =>
      match qv.leZero with
      | .error e => (.exn e, st)
      | .ok le =>
        if le || !qv.isIntType then
          (.rejected "Ensure this value is integer and greater than 0.", st)
        else
          match st.findCartPosition posId with
          | Option.none => (.rejected "Not found.", st)
          | some pos =>
            match st.findStock pos.stock with
            | Option.none => (.exn "Stock matching query does not exist", st)
            | some stock =>
              let q : Int := qv.toIntVal
              if q ≤ (pos.quantity : Int) then
                let st1 := st.saveStock
                  { stock with quantity := stock.quantity + (pos.quantity - q.toNat) }
                (.ok, cartQuantityWriteBack st1 posId q.toNat)
              else
                match st.findSupplier stock.supplier with
                | Option.none => (.exn "Supplier matching query does not exist", st)
                | some sup =>
                  if !sup.order_status then
                    (.rejected "This supplier does not take new orders at the moment", st)
                  else if (q.toNat - pos.quantity) ≤ stock.quantity then
                    let st1 := st.saveStock
                      { stock with quantity := stock.quantity - (q.toNat - pos.quantity) }
                    (.ok, cartQuantityPriceWriteBack st1 posId q.toNat stock.price)
                  else
                    (.rejected "Not enough stock", st)

/-- The store after a successful cart line removal: the stock row saved with
`qn` units returned, and the row deleted. -/
def cartRemoveState (st : DBState) (posId : Nat) (stock : Stock)
    (qn : Nat) : DBState :=
  let st1 := st.saveStock { stock with quantity := stock.quantity + qn }
  { st1 with cart_positions :=
    st1.cart_positions.filter (fun p => !(p.id == posId)) }

/-- `CartPositionViewSet.destroy` (`views.py` 884-893): return the position's
quantity to its stock, then delete the row. -/
def CartPositionViewSet.destroy (st : DBState) (posId : Nat) :
    Verdict × DBState :=
  match st.findCartPosition posId with
  | Option.none => (.rejected "Not found.", st)
  | some pos =>
    match st.findStock pos.stock with
    | Option.none => (.exn "Stock matching query does not exist", st)
    | some stock =>
      (.ok, cartRemoveState st posId stock pos.quantity)

/-- `ShoppingCartViewSet.destroy` (`views.py` 778-789): for every position of
the cart, add its quantity back to its stock, then delete all the cart's
positions. -/
def ShoppingCartViewSet.destroy (st : DBState) (cartId : Nat) :
    Verdict × DBState :=
  let posns := st.cart_positions.filter (fun p => p.shopping_cart == cartId)
  let st1 := st.restockAll (posns.map (fun p => (p.stock, p.quantity)))
  (.ok, { st1 with cart_positions :=
    st1.cart_positions.filter (fun p => !(p.shopping_cart == cartId)) })

/-- `OrderViewSet.create` (`views.py` 1082-1169), for a request by the
purchaser `purchaserId` whose shopping cart is `cartId` (the view resolves
both from `request.user`; the purchaser-exists guard is outside this model).
Creates the order with default status `"saved"`, one `OrderPosition` per
`CartPosition` copying stock, quantity and price, deletes the cart positions,
and never touches any stock quantity.  The notification emails are
fire-and-forget external calls and are not part of the state. -/
def OrderViewSet.create (st : DBState) (purchaserId cartId : Nat)
    (chainStoreId : Nat) : Verdict × DBState :=
  let posns := st.cart_positions.filter (fun p => p.shopping_cart == cartId)
  if posns.isEmpty then
    (.rejected "Your shopping cart is empty", st)
  else
    match st.findChainStore chainStoreId with
    | Option.none => (.rejected "Invalid pk: object does not exist.", st)
    | some cs =>
      if cs.purchaser != purchaserId then
        (.rejected "Your can order delivery only to your chain stores", st)
      else
        let order : Order :=
          { id := st.seq, purchaser := purchaserId,
            chain_store := chainStoreId, status := "saved" }
        let newPositions := posns.enum.map (fun pi =>
          { id := st.seq + 1 + pi.1, order := order.id, stock := pi.2.stock,
            quantity := pi.2.quantity, price := pi.2.price,
            confirmed := false, delivered := false : OrderPosition })
        (.ok, { st with
          orders := st.orders ++ [order],
          order_positions := st.order_positions ++ newPositions,
          cart_positions := st.cart_positions.filter
            (fun p => !(p.shopping_cart == cartId)),
          seq := st.seq + 1 + posns.length })

/-- `OrderViewSet.destroy` (`views.py` 1171-1199): cancel an order.  Rejected
when already cancelled or when any position is confirmed or delivered;
otherwise set the status to `"cancelled"` and add every position's quantity
back to its stock. -/
def OrderViewSet.destroy (st : DBState) (orderId : Nat) : Verdict × DBState :=
  match st.findOrder orderId with
  | Option.none => (.rejected "Not found.", st)
  | some inst =>
    if inst.status == "cancelled" then
      (.rejected "Order is already cancelled", st)
    else
      let posns := st.order_positions.filter (fun p => p.order == orderId)
      if posns.any (fun p => p.confirmed || p.delivered) then
        (.rejected "Your can cancel only fully unconfirmed and undelivered orders", st)
      else
        let cancel := fun o : Order =>
          if o.id == orderId then { o with status := "cancelled" } else o
        let st1 := { st with orders := st.orders.map cancel }
        (.ok, st1.restockAll (posns.map (fun p => (p.stock, p.quantity))))

/-- One pass of the `confirmed`/`delivered` handling in
`OrderPositionViewSet.update`: a boolean `true` turns the flag on, a boolean
`false` over an already-true flag is the revocation error, a boolean `false`
over a false flag leaves it false, anything non-boolean is a validation
error. -/
def applyFlag (current : Bool) (v : PyVal) (revokeMsg invalidMsg : String) :
    Except String Bool :=
  match v with
  | .pyBool true => .ok true
  | .pyBool false => if current then .error revokeMsg else .ok current
  | _ => .error invalidMsg

/-- `applyFlag` over an optional payload field: an absent key leaves the
flag as it is. -/
def applyFlagOpt (current : Bool) (v : Option PyVal)
    (revokeMsg invalidMsg : String) : Except String Bool :=
  match v with
  | Option.none => .ok current
  | some v => applyFlag current v revokeMsg invalidMsg

/-- `instance.save()` at the end of `OrderPositionViewSet.update`: write the
two flags of position `posId` back to the store. -/
def flagWriteBack (st : DBState) (posId : Nat) (nc nd : Bool) : DBState :=
  let f := fun p : OrderPosition =>
    if p.id == posId then { p with confirmed := nc, delivered := nd } else p
  { st with order_positions := st.order_positions.map f }

/-- `OrderPositionViewSet.update` (`views.py` 1302-1359): confirm or deliver
an order position.  `confirmedVal`/`deliveredVal` are the payload fields
(`Option.none` when the key is absent).  The instance is saved only after both
fields are processed, so an error on either field leaves the store
unchanged. -/
def OrderPositionViewSet.update (st : DBState) (posId : Nat)
    (confirmedVal deliveredVal : Option PyVal) : Verdict × DBState :=
  match confirmedVal, deliveredVal with
  | Option.none, Option.none =>
    (.rejected "You can amend confirmed or/and delivered status", st)
  | _, _ =>
    match st.findOrderPosition posId with
    | Option.none => (.rejected "Not found.", st)
    | some inst =>
      match st.findOrder inst.order with
      | Option.none => (.exn "Order matching query does not exist", st)
      | some ord =>
        if ord.status == "cancelled" then
          (.rejected "You cannot confirm and deliver cancelled order positions", st)
        else
          match applyFlagOpt inst.confirmed confirmedVal
              "Your cannot revoke your confirmation" "Must be a valid boolean." with
          | .error m => (.rejected m, st)
          | .ok newConfirmed =>
            match applyFlagOpt inst.delivered deliveredVal
                "Your cannot revoke your delivery" "Must be a valid boolean." with
            | .error m => (.rejected m, st)
            | .ok newDelivered =>
              (.ok, flagWriteBack st posId newConfirmed newDelivered)

/-- The order's position rows (`self.order_positions.all()`). -/
def DBState.orderPositionsOf (st : DBState) (oid : Nat) : List OrderPosition :=
  st.order_positions.filter (fun p => p.order == oid)

/-- `Order.check_confirmed` (`models.py` 319-327): `False` as soon as one
position is unconfirmed, `True` otherwise (in particular on no positions). -/
def Order.check_confirmed (st : DBState) (o : Order) : Bool :=
  (st.orderPositionsOf o.id).all (fun p => p.confirmed)

/-- `Order.check_delivered` (`models.py` 337-345). -/
def Order.check_delivered (st : DBState) (o : Order) : Bool :=
  (st.orderPositionsOf o.id).all (fun p => p.delivered)

/-- `Order.calculate_total_quantity` (`models.py` 355-360): sum of the
positions' quantities. -/
def Order.calculate_total_quantity (st : DBState) (o : Order) : Nat :=
  ((st.orderPositionsOf o.id).map (fun p => p.quantity)).sum

/-- `OrderPosition.amount` (`models.py` 421-427): `quantity * price`. -/
def OrderPosition.amount (p : OrderPosition) : ℚ :=
  (p.quantity : ℚ) * p.price

/-- `Order.calculate_total_amount` (`models.py` 370-384): sum the positions'
amounts while collecting the set of their stocks' suppliers; when more than
one distinct supplier occurs, multiply the sum by the configured
`COMBINED_ORDER_MULTIPLIER` (`multiplier` here, a parameter of the model
since the settings module is outside the repository's core sources). -/
def Order.calculate_total_amount (multiplier : ℚ) (st : DBState) (o : Order) : ℚ :=
  let posns := st.orderPositionsOf o.id
  let amount := (posns.map OrderPosition.amount).sum
  let suppliers :=
    (posns.filterMap (fun p => (st.findStock p.stock).map Stock.supplier)).dedup
  if 1 < suppliers.length then multiplier * amount else amount

/-- The authenticated actor of a request: the custom user's role tag
(`type`, one of the `USER_TYPE_CHOICES` strings) and the Django
`is_superuser` flag. -/
structure AuthUser where
  id : Nat
  type : String
  is_superuser : Bool
  deriving DecidableEq, Repr

/-- Outcome of a list-type read: the filtered rows, a 401 for an anonymous
caller, a 403 from a permission class, or a 500 when the view raises (for
instance by iterating a `None` queryset). -/
inductive ListResult (α : Type) where
  | ok (items : List α)
  | authError
  | forbidden
  | serverError
  deriving DecidableEq, Repr

/-- `StockViewSet.get_queryset` (`views.py` 436-464): superusers see every
stock; purchasers see stocks of order-taking suppliers with positive
quantity; suppliers see their own stocks; any other authenticated user falls
through every branch and the method returns Python `None`. -/
def StockViewSet.get_queryset (u : AuthUser) (st : DBState) :
    Option (List Stock) :=
  if u.is_superuser then
    some st.stocks
  else if u.type == "purchaser" then
    some (st.stocks.filter (fun s =>
      (match st.findSupplier s.supplier with
       | some sup => sup.order_status
       | Option.none => false) && decide (0 < s.quantity)))
  else if u.type == "supplier" then
    some (st.stocks.filter (fun s =>
      match st.findSupplier s.supplier with
      | some sup => sup.user == u.id
      | Option.none => false))
  else
    Option.none

/-- The `list` action of `StockViewSet`: the permission gate is
`IsAuthenticated` (`views.py` 471-472), then the queryset is rendered;
rendering a `None` queryset raises, which the framework turns into a 500. -/
def StockViewSet.list (u : Option AuthUser) (st : DBState) : ListResult Stock :=
  match u with
  | Option.none => .authError
  | some user =>
    match StockViewSet.get_queryset user st with
    | some qs => .ok qs
    | Option.none => .serverError

/-- `Purchaser` row (`models.py`): owned by exactly one user. -/
structure Purchaser where
  id : Nat
  user : Nat
  deriving DecidableEq, Repr

/-- `PurchaserViewSet.get_queryset` (`views.py` 664-682): superusers see
every purchaser, a purchaser sees itself, anything else falls through and
the method returns Python `None`. -/
def PurchaserViewSet.get_queryset (u : AuthUser) (purchasers : List Purchaser) :
    Option (List Purchaser) :=
  if u.is_superuser then
    some purchasers
  else if u.type == "purchaser" then
    some (purchasers.filter (fun p => p.user == u.id))
  else
    Option.none

/-- The `list` action of `PurchaserViewSet`: the permission gate is
`IsAdmin | IsPurchaser` (`views.py` 689-691, `permissions.py`: `IsAdmin`
checks `is_superuser`, `IsPurchaser` checks `type == "purchaser"`), then the
queryset is rendered. -/
def PurchaserViewSet.list (u : Option AuthUser) (purchasers : List Purchaser) :
    ListResult Purchaser :=
  match u with
  | Option.none => .authError
  | some user =>
    if !(user.is_superuser || user.type == "purchaser") then
      .forbidden
    else
      match PurchaserViewSet.get_queryset user purchasers with
      | some qs => .ok qs
      | Option.none => .serverError

/-- One cart-engine operation of the add/update/remove/clear vocabulary,
as issued by the purchaser owning cart `cartId`. -/
inductive CartOp where
  | add (cartId stockId : Nat) (quantity : PyVal)
  | update (posId : Nat) (quantity : PyVal)
  | remove (posId : Nat)
  | clear (cartId : Nat)
  deriving DecidableEq, Repr

/-- The state after one cart-engine operation (rejected or crashed requests
leave the store unchanged, which each view guarantees by writing only on its
success path). -/
def applyCartOp (st : DBState) (op : CartOp) : DBState :=
  match op with
  | .add cartId stockId q => (CartPositionViewSet.create st cartId (some stockId) q).2
  | .update posId q => (CartPositionViewSet.update st posId false false false (some q)).2
  | .remove posId => (CartPositionViewSet.destroy st posId).2
  | .clear cartId => (ShoppingCartViewSet.destroy st cartId).2

/-- The state after a sequence of cart-engine operations. -/
def runCartOps (st : DBState) (ops : List CartOp) : DBState :=
  ops.foldl applyCartOp st

/-- The quantity a cart position reserves against stock `sid`. -/
def qtyOf (p : CartPosition) (sid : Nat) : Nat :=
  if p.stock == sid then p.quantity else 0

/-- The total quantity a list of cart positions reserves against stock
`sid`. -/
def qtySum (l : List CartPosition) (sid : Nat) : Nat :=
  (l.map (fun p => qtyOf p sid)).sum

/-- The total quantity a list of `(stock id, quantity)` restock items adds
to stock `sid`. -/
def itemsSum (items : List (Nat × Nat)) (sid : Nat) : Nat :=
  (items.map (fun it => if it.1 == sid then it.2 else 0)).sum

/-- The quantity reserved against stock `sid` by the surviving cart
positions of the whole store. -/
def DBState.reserved (st : DBState) (sid : Nat) : Nat :=
  qtySum st.cart_positions sid

/-- The on-hand quantity of stock `sid` (0 when no such row exists; the
cart-engine operations never insert or delete stock rows). -/
def DBState.stockQty (st : DBState) (sid : Nat) : Nat :=
  match st.findStock sid with
  | some s => s.quantity
  | Option.none => 0

/-- The conserved quantity of the reservation discipline: on-hand plus
reserved-by-surviving-positions, per stock. -/
def DBState.measureOf (st : DBState) (sid : Nat) : Nat :=
  st.stockQty sid + st.reserved sid

/-- Database well-formedness as guaranteed by the schema: primary keys of
cart positions are unique and below the auto-increment counter, and every
cart position's stock foreign key resolves. -/
structure WF (st : DBState) : Prop where
  pos_ids : (st.cart_positions.map (fun p => p.id)).Nodup
  pos_seq : ∀ p ∈ st.cart_positions, p.id < st.seq
  pos_stock : ∀ p ∈ st.cart_positions, st.findStock p.stock ≠ Option.none

/-! Concrete example rows and stores, used to witness the theorems below on
evaluable inputs. -/

/-- Example store: two accepting suppliers (ids 1, 2), one non-accepting
supplier (id 3), three stocks (ids 1-3), one cart position (cart 1 holds 2
of stock 1 at the snapshot price 100), two chain stores, a saved two-line
two-supplier order (id 20), an empty saved order (id 21) and a cancelled
order (id 22). -/
def exState : DBState :=
  { suppliers :=
      [ { id := 1, user := 10, order_status := true },
        { id := 2, user := 11, order_status := true },
        { id := 3, user := 12, order_status := false } ],
    stocks :=
      [ { id := 1, supplier := 1, price := 100, quantity := 5 },
        { id := 2, supplier := 2, price := 5, quantity := 7 },
        { id := 3, supplier := 3, price := 8, quantity := 4 },
        { id := 4, supplier := 1, price := 20, quantity := 10 } ],
    cart_positions :=
      [ { id := 30, shopping_cart := 1, stock := 1, quantity := 2, price := 100 } ],
    chain_stores :=
      [ { id := 1, purchaser := 1 }, { id := 2, purchaser := 2 } ],
    orders :=
      [ { id := 20, purchaser := 1, chain_store := 1, status := "saved" },
        { id := 21, purchaser := 1, chain_store := 1, status := "saved" },
        { id := 22, purchaser := 1, chain_store := 1, status := "cancelled" },
        { id := 23, purchaser := 1, chain_store := 1, status := "saved" } ],
    order_positions :=
      [ { id := 40, order := 20, stock := 1, quantity := 3, price := 10,
          confirmed := false, delivered := false },
        { id := 41, order := 20, stock := 2, quantity := 2, price := 5,
          confirmed := false, delivered := false },
        { id := 42, order := 23, stock := 1, quantity := 3, price := 10,
          confirmed := false, delivered := false },
        { id := 43, order := 23, stock := 4, quantity := 1, price := 20,
          confirmed := false, delivered := false } ],
    seq := 100 }

/-- A store exhibiting the price re-snapshot on a cart-quantity increase:
cart position 30 froze price 10 when it was added, but stock 1 has since
been re-priced to 20 (quantity 5, accepting supplier 1). -/
def exStateC2 : DBState :=
  { suppliers := [ { id := 1, user := 10, order_status := true } ],
    stocks := [ { id := 1, supplier := 1, price := 20, quantity := 5 } ],
    cart_positions :=
      [ { id := 30, shopping_cart := 1, stock := 1, quantity := 1, price := 10 } ],
    chain_stores := [], orders := [], order_positions := [], seq := 100 }

/-- The example store with an empty cart, the pre-cart-activity baseline of
the conservation claim. -/
def exStateC7 : DBState := { exState with cart_positions := [] }

/-! Shared helper lemmas. -/

/-- `find?` by id commutes with the row overwrite performed by `save`. -/
theorem find?_save (l : List Stock) (s : Stock) (sid : Nat) :
    (l.map (fun t => if t.id == s.id then s else t)).find? (fun t => t.id == sid) =
      (l.find? (fun t => t.id == sid)).map (fun t => if t.id == s.id then s else t) := by
  rw [List.find?_map]
  have hp : ((fun t : Stock => t.id == sid) ∘
      (fun t => if t.id == s.id then s else t)) = (fun t : Stock => t.id == sid) := by
    funext t
    by_cases h : t.id = s.id <;> simp [h]
  rw [hp]

/-- A found stock row has the id it was looked up by. -/
theorem findStock_id {st : DBState} {sid : Nat} {s : Stock}
    (h : st.findStock sid = some s) : s.id = sid := by
  have := List.find?_some h
  simpa using this

/-- `findStock` after `saveStock`. -/
theorem findStock_saveStock (st : DBState) (s : Stock) (sid : Nat) :
    (st.saveStock s).findStock sid =
      (st.findStock sid).map (fun t => if t.id == s.id then s else t) := by
  simp only [DBState.findStock, DBState.saveStock]
  exact find?_save st.stocks s sid

/-- `saveStock` leaves rows with other ids untouched. -/
theorem stockQty_saveStock_ne {st : DBState} {s : Stock} {sid : Nat}
    (h : sid ≠ s.id) : (st.saveStock s).stockQty sid = st.stockQty sid := by
  simp only [DBState.stockQty, findStock_saveStock]
  cases hf : st.findStock sid with
  | none => rfl
  | some t =>
    have ht : t.id = sid := findStock_id hf
    have hne : t.id ≠ s.id := by rw [ht]; exact h
    simp [hne]

/-- `saveStock` overwrites the looked-up row. -/
theorem stockQty_saveStock_self {st : DBState} {s t : Stock}
    (h : st.findStock s.id = some t) :
    (st.saveStock s).stockQty s.id = s.quantity := by
  simp only [DBState.stockQty, findStock_saveStock, h]
  have ht : t.id = s.id := findStock_id h
  simp [ht]

/-- `saveStock` preserves which stock ids are present. -/
theorem findStock_saveStock_isSome (st : DBState) (s : Stock) (sid : Nat) :
    (st.saveStock s).findStock sid = Option.none ↔
      st.findStock sid = Option.none := by
  simp only [findStock_saveStock]
  cases st.findStock sid <;> simp

/-- `qtySum` over an appended list. -/
theorem qtySum_append (l l' : List CartPosition) (sid : Nat) :
    qtySum (l ++ l') sid = qtySum l sid + qtySum l' sid := by
  simp [qtySum]

/-- `find?` by a predicate commutes with mapping a function that preserves
the predicate. -/
theorem find?_map_of_pred {α : Type} (l : List α) (g : α → α) (p : α → Bool)
    (hg : ∀ a, p (g a) = p a) :
    (l.map g).find? p = (l.find? p).map g := by
  induction l with
  | nil => rfl
  | cons h t ih =>
    simp only [List.map_cons, List.find?]
    rw [hg h]
    cases hp : p h <;> simp [hp, ih]

/-- A found cart-position row has the id it was looked up by. -/
theorem findCartPosition_id {st : DBState} {pid : Nat} {p : CartPosition}
    (h : st.findCartPosition pid = some p) : p.id = pid := by
  have := List.find?_some h
  simpa using this

/-- Looking up the updated row after the quantity-only write-back. -/
theorem findCartPosition_qWriteBack {st : DBState} {posId : Nat}
    {pos : CartPosition} (h : st.findCartPosition posId = some pos) (q : Nat) :
    (cartQuantityWriteBack st posId q).findCartPosition posId
      = some { pos with quantity := q } := by
  have hcomm := find?_map_of_pred st.cart_positions
      (fun p => if p.id == posId then { p with quantity := q } else p)
      (fun p => p.id == posId) ?side
  case side =>
    intro a
    by_cases hh : a.id = posId <;> simp [hh]
  have hid : pos.id = posId := findCartPosition_id h
  simp only [DBState.findCartPosition, cartQuantityWriteBack] at h ⊢
  simp only [hcomm, h, Option.map_some]
  simp [hid]

/-- Looking up the updated row after the quantity-and-price write-back. -/
theorem findCartPosition_qpWriteBack {st : DBState} {posId : Nat}
    {pos : CartPosition} (h : st.findCartPosition posId = some pos)
    (q : Nat) (pr : ℚ) :
    (cartQuantityPriceWriteBack st posId q pr).findCartPosition posId
      = some { pos with quantity := q, price := pr } := by
  have hcomm := find?_map_of_pred st.cart_positions
      (fun p => if p.id == posId then { p with quantity := q, price := pr }
        else p)
      (fun p => p.id == posId) ?side
  case side =>
    intro a
    by_cases hh : a.id = posId <;> simp [hh]
  have hid : pos.id = posId := findCartPosition_id h
  simp only [DBState.findCartPosition, cartQuantityPriceWriteBack] at h ⊢
  simp only [hcomm, h, Option.map_some]
  simp [hid]

/-- A found order row has the id it was looked up by. -/
theorem findOrder_id {st : DBState} {oid : Nat} {o : Order}
    (h : st.findOrder oid = some o) : o.id = oid := by
  have := List.find?_some h
  simpa using this

/-- `restock` on a present stock adds the quantity to that row. -/
theorem stockQty_restock_self {st : DBState} {sid : Nat} (qty : Nat)
    (h : st.findStock sid ≠ Option.none) :
    (st.restock sid qty).stockQty sid = st.stockQty sid + qty := by
  cases hf : st.findStock sid with
  | none => exact absurd hf h
  | some s =>
    have hid : s.id = sid := findStock_id hf
    have hfind : st.findStock ({ s with quantity := s.quantity + qty } : Stock).id
        = some s := by simpa [hid] using hf
    have h2 := stockQty_saveStock_self hfind
    simp only [] at h2
    rw [hid] at h2
    simp only [DBState.restock, hf]
    rw [hid, h2]
    simp [DBState.stockQty, hf, hid]

/-- `restock` leaves other stock rows untouched. -/
theorem stockQty_restock_ne {st : DBState} {sid sid' : Nat} (qty : Nat)
    (h : sid' ≠ sid) :
    (st.restock sid qty).stockQty sid' = st.stockQty sid' := by
  cases hf : st.findStock sid with
  | none => simp [DBState.restock, hf]
  | some s =>
    have hid : s.id = sid := findStock_id hf
    simp only [DBState.restock, hf]
    exact stockQty_saveStock_ne (by simp [hid, h])

/-- `restock` preserves which stock ids are present. -/
theorem findStock_restock_none {st : DBState} {sid qty x : Nat} :
    (st.restock sid qty).findStock x = Option.none ↔
      st.findStock x = Option.none := by
  cases hf : st.findStock sid with
  | none => simp [DBState.restock, hf]
  | some s => simp [DBState.restock, hf, findStock_saveStock_isSome]

/-- `restock` only touches the stocks table. -/
theorem restock_fields (st : DBState) (sid qty : Nat) :
    (st.restock sid qty).cart_positions = st.cart_positions ∧
    (st.restock sid qty).orders = st.orders ∧
    (st.restock sid qty).order_positions = st.order_positions ∧
    (st.restock sid qty).seq = st.seq := by
  cases hf : st.findStock sid <;>
    simp [DBState.restock, hf, DBState.saveStock]

/-- `restockAll` adds, per stock, the summed quantities of its items, as long
as every item's stock id is present. -/
theorem stockQty_restockAll (items : List (Nat × Nat)) (st : DBState) (sid : Nat)
    (hpres : ∀ it ∈ items, st.findStock it.1 ≠ Option.none) :
    (st.restockAll items).stockQty sid = st.stockQty sid + itemsSum items sid := by
  induction items generalizing st with
  | nil => simp [DBState.restockAll, itemsSum]
  | cons it rest ih =>
    have hpres1 : st.findStock it.1 ≠ Option.none := hpres it (by simp)
    have hstep : (st.restock it.1 it.2).stockQty sid
        = st.stockQty sid + (if it.1 == sid then it.2 else 0) := by
      by_cases h : it.1 = sid
      · subst h
        simpa using stockQty_restock_self it.2 hpres1
      · have := @stockQty_restock_ne st it.1 sid it.2 (Ne.symm h)
        simp [this, h]
    have hpres' : ∀ x ∈ rest, (st.restock it.1 it.2).findStock x.1 ≠ Option.none := by
      intro x hx
      rw [Ne, findStock_restock_none]
      exact hpres x (by simp [hx])
    have := ih (st.restock it.1 it.2) hpres'
    simp only [DBState.restockAll] at this ⊢
    simp only [List.foldl_cons]
    rw [this, hstep]
    simp [itemsSum]
    omega

/-- `restockAll` only touches the stocks table. -/
theorem restockAll_fields (items : List (Nat × Nat)) (st : DBState) :
    (st.restockAll items).cart_positions = st.cart_positions ∧
    (st.restockAll items).orders = st.orders ∧
    (st.restockAll items).order_positions = st.order_positions ∧
    (st.restockAll items).seq = st.seq := by
  induction items generalizing st with
  | nil => simp [DBState.restockAll]
  | cons it rest ih =>
    have h1 := restock_fields st it.1 it.2
    have h2 := ih (st.restock it.1 it.2)
    simp only [DBState.restockAll, List.foldl_cons] at h2 ⊢
    exact ⟨h2.1.trans h1.1, h2.2.1.trans h1.2.1,
      h2.2.2.1.trans h1.2.2.1, h2.2.2.2.trans h1.2.2.2⟩

/-- `restockAll` preserves which stock ids are present. -/
theorem findStock_restockAll_none (items : List (Nat × Nat)) (st : DBState)
    (x : Nat) :
    (st.restockAll items).findStock x = Option.none ↔
      st.findStock x = Option.none := by
  induction items generalizing st with
  | nil => simp [DBState.restockAll]
  | cons it rest ih =>
    simp only [DBState.restockAll, List.foldl_cons] at ih ⊢
    rw [ih (st.restock it.1 it.2), findStock_restock_none]

/-- Updating the uniquely identified row `pos` through a map changes a
per-stock quantity sum by replacing `pos`'s contribution with `f pos`'s. -/
theorem qtySum_map_update (l : List CartPosition) (i : Nat)
    (pos : CartPosition) (f : CartPosition → CartPosition) (sid : Nat)
    (hN : (l.map (fun p => p.id)).Nodup)
    (hfind : l.find? (fun p => p.id == i) = some pos) :
    qtySum (l.map (fun p => if p.id == i then f p else p)) sid + qtyOf pos sid
      = qtySum l sid + qtyOf (f pos) sid := by
  induction l with
  | nil => cases hfind
  | cons h t ih =>
    simp only [List.map_cons, List.nodup_cons] at hN
    rcases hN with ⟨hh, hN⟩
    by_cases hhi : h.id = i
    · have hpt : (h.id == i) = true := by simp [hhi]
      simp only [List.find?, hpt] at hfind
      have hph : pos = h := (Option.some_inj.mp hfind).symm
      have hne : ∀ p ∈ t, ¬ p.id = i := by
        intro p hp
        have hne' : p.id ≠ h.id := fun hcon =>
          hh (List.mem_map.mpr ⟨p, hp, hcon⟩)
        rw [hhi] at hne'
        exact hne'
      have htail : t.map (fun p => if p.id == i then f p else p) = t := by
        calc t.map (fun p => if p.id == i then f p else p)
            = t.map id := List.map_congr_left (fun p hp => by
              simp [hne p hp])
          _ = t := List.map_id t
      rw [hph]
      simp only [List.map_cons, htail]
      simp [qtySum, hhi]
      omega
    · have hpf : (h.id == i) = false := by simp [hhi]
      simp only [List.find?, hpf] at hfind
      have := ih hN hfind
      simp [qtySum, hhi] at this ⊢
      omega

/-- Removing the uniquely identified row `pos` removes exactly its
contribution from a per-stock quantity sum. -/
theorem qtySum_filter_out (l : List CartPosition) (i : Nat)
    (pos : CartPosition) (sid : Nat)
    (hN : (l.map (fun p => p.id)).Nodup)
    (hfind : l.find? (fun p => p.id == i) = some pos) :
    qtySum (l.filter (fun p => !(p.id == i))) sid + qtyOf pos sid
      = qtySum l sid := by
  induction l with
  | nil => cases hfind
  | cons h t ih =>
    simp only [List.map_cons, List.nodup_cons] at hN
    rcases hN with ⟨hh, hN⟩
    by_cases hhi : h.id = i
    · have hpt : (h.id == i) = true := by simp [hhi]
      simp only [List.find?, hpt] at hfind
      have hph : pos = h := (Option.some_inj.mp hfind).symm
      have hne : ∀ p ∈ t, ¬ p.id = i := by
        intro p hp
        have hne' : p.id ≠ h.id := fun hcon =>
          hh (List.mem_map.mpr ⟨p, hp, hcon⟩)
        rw [hhi] at hne'
        exact hne'
      have htail : t.filter (fun p => !(p.id == i)) = t := by
        apply List.filter_eq_self.mpr
        intro p hp
        simp [hne p hp]
      rw [hph]
      simp only [List.filter_cons, htail]
      simp [qtySum, hhi]
      omega
    · have hpf : (h.id == i) = false := by simp [hhi]
      simp only [List.find?, hpf] at hfind
      have := ih hN hfind
      simp [qtySum, List.filter_cons, hhi] at this ⊢
      omega

/-- A per-stock quantity sum splits along any boolean partition. -/
theorem qtySum_partition (l : List CartPosition) (q : CartPosition → Bool)
    (sid : Nat) :
    qtySum (l.filter q) sid + qtySum (l.filter (fun p => !(q p))) sid
      = qtySum l sid := by
  induction l with
  | nil => simp [qtySum]
  | cons h t ih =>
    have ih' := ih
    simp only [qtySum] at ih'
    cases hq : q h
    · simp [List.filter_cons, hq, qtySum]
      omega
    · simp [List.filter_cons, hq, qtySum]
      omega

/-- The restock items produced from cart positions add back exactly the
per-stock reserved sum. -/
theorem itemsSum_map_positions (ps : List CartPosition) (sid : Nat) :
    itemsSum (ps.map (fun p => (p.stock, p.quantity))) sid = qtySum ps sid := by
  simp only [itemsSum, qtySum, List.map_map]
  rfl

/-- A list whose elements are pairwise equal deduplicates to at most one
element. -/
theorem dedup_length_le_one {l : List Nat}
    (h : ∀ a ∈ l, ∀ b ∈ l, a = b) : l.dedup.length ≤ 1 := by
  match hd : l.dedup with
  | [] => simp
  | [a] => simp
  | a :: b :: t =>
    exfalso
    have hnd : l.dedup.Nodup := l.nodup_dedup
    rw [hd] at hnd
    have ha : a ∈ l := List.mem_dedup.mp (by rw [hd]; simp)
    have hb : b ∈ l := List.mem_dedup.mp (by rw [hd]; simp)
    have hab : a = b := h a ha b hb
    rcases List.nodup_cons.mp hnd with ⟨hna, _⟩
    exact hna (by simp [hab])

/-- A list holding two distinct elements deduplicates to length above one. -/
theorem one_lt_dedup_length {l : List Nat} {a b : Nat}
    (ha : a ∈ l) (hb : b ∈ l) (hab : a ≠ b) : 1 < l.dedup.length := by
  have ha' : a ∈ l.dedup := List.mem_dedup.mpr ha
  have hb' : b ∈ l.dedup := List.mem_dedup.mpr hb
  match hd : l.dedup with
  | [] => rw [hd] at ha'; simp at ha'
  | [x] =>
    rw [hd] at ha' hb'
    simp at ha' hb'
    exact absurd (ha'.trans hb'.symm) hab
  | x :: y :: t => simp

/-- The success state's rows, by definitional unfolding. -/
theorem cartAddSuccessState_cart_positions (st : DBState) (c s : Nat)
    (stock : Stock) (qn : Nat) :
    (cartAddSuccessState st c s stock qn).cart_positions
      = st.cart_positions ++
        [{ id := st.seq, shopping_cart := c, stock := s,
           quantity := qn, price := stock.price }] := rfl

/-- The success state's primary-key counter. -/
theorem cartAddSuccessState_seq (st : DBState) (c s : Nat) (stock : Stock)
    (qn : Nat) :
    (cartAddSuccessState st c s stock qn).seq = st.seq + 1 := rfl

/-- The success state's stocks are those of the save. -/
theorem cartAddSuccessState_stockQty (st : DBState) (c s : Nat)
    (stock : Stock) (qn : Nat) (sid : Nat) :
    (cartAddSuccessState st c s stock qn).stockQty sid
      = (st.saveStock { stock with
          quantity := stock.quantity - qn }).stockQty sid := rfl

/-- The success state's stock lookups are those of the save. -/
theorem cartAddSuccessState_findStock (st : DBState) (c s : Nat)
    (stock : Stock) (qn : Nat) (sid : Nat) :
    (cartAddSuccessState st c s stock qn).findStock sid
      = (st.saveStock { stock with
          quantity := stock.quantity - qn }).findStock sid := rfl

/-- The success state's reserved quantities gain the new line. -/
theorem cartAddSuccessState_reserved (st : DBState) (c s : Nat)
    (stock : Stock) (qn : Nat) (sid : Nat) :
    (cartAddSuccessState st c s stock qn).reserved sid
      = st.reserved sid + (if s == sid then qn else 0) := by
  have : (cartAddSuccessState st c s stock qn).reserved sid
      = qtySum (st.cart_positions ++
          [{ id := st.seq, shopping_cart := c, stock := s,
             quantity := qn, price := stock.price }]) sid := rfl
  rw [this, qtySum_append]
  simp [qtySum, qtyOf, DBState.reserved]

/-- Result analysis for cart add: either nothing changed, or the request
passed every guard, the stock was decremented and the position appended. -/
theorem create_result (st : DBState) (c s : Nat) (qv : PyVal) :
    (CartPositionViewSet.create st c (some s) qv).2 = st ∨
    ∃ stock q, st.findStock s = some stock ∧ qv = PyVal.pyInt q ∧ 0 < q ∧
      q ≤ (stock.quantity : Int) ∧
      (CartPositionViewSet.create st c (some s) qv).2
        = cartAddSuccessState st c s stock q.toNat := by
  by_cases ht : qv.truthy
  case neg => left; simp [CartPositionViewSet.create, ht]
  case pos =>
    by_cases hdup : st.cart_positions.any
        (fun p => p.stock == s && p.shopping_cart == c)
    · left; simp [CartPositionViewSet.create, ht, hdup]
    · cases hst : st.findStock s with
      | none => left; simp [CartPositionViewSet.create, ht, hdup, hst]
      | some stock =>
        cases hsup : st.findSupplier stock.supplier with
        | none => left; simp [CartPositionViewSet.create, ht, hdup, hst, hsup]
        | some sup =>
          by_cases hos : sup.order_status
          case neg =>
            left
            have hos' : sup.order_status = false := by simpa using hos
            simp [CartPositionViewSet.create, ht, hdup, hst, hsup, hos']
          case pos =>
            rcases qv with q | b | str | _
            · by_cases hq : q ≤ 0
              · left
                simp [CartPositionViewSet.create, ht, hdup, hst, hsup, hos,
                  PyVal.leZero, hq]
              · by_cases hgt : (stock.quantity : Int) < q
                · left
                  simp [CartPositionViewSet.create, ht, hdup, hst, hsup, hos,
                    PyVal.leZero, hq, PyVal.isIntType, hgt, PyVal.toIntVal]
                · right
                  refine ⟨stock, q, rfl, rfl, by omega, by omega, ?_⟩
                  simp [CartPositionViewSet.create, ht, hdup, hst, hsup, hos,
                    PyVal.leZero, hq, PyVal.isIntType, hgt, PyVal.toIntVal]
            · left
              cases b
              · exact absurd ht (by simp [PyVal.truthy])
              · simp [CartPositionViewSet.create, ht, hdup, hst, hsup, hos,
                  PyVal.leZero, PyVal.isIntType]
            · left
              simp [CartPositionViewSet.create, ht, hdup, hst, hsup, hos,
                PyVal.leZero]
            · exact absurd ht (by simp [PyVal.truthy])

/-- Cart add preserves well-formedness and, per stock, the conserved sum of
on-hand plus reserved quantity. -/
theorem create_preserves (st : DBState) (c s : Nat) (qv : PyVal)
    (hwf : WF st) :
    WF (CartPositionViewSet.create st c (some s) qv).2 ∧
    (∀ sid, (CartPositionViewSet.create st c (some s) qv).2.measureOf sid
      = st.measureOf sid) := by
  rcases create_result st c s qv with heq | ⟨stock, q, hst, hqv, hq, hle, heq⟩
  · rw [heq]; exact ⟨hwf, fun _ => rfl⟩
  · rw [heq]
    have hid : stock.id = s := findStock_id hst
    have hq' : q.toNat ≤ stock.quantity := by omega
    constructor
    · constructor
      · rw [cartAddSuccessState_cart_positions, List.map_append,
          List.nodup_append]
        refine ⟨hwf.pos_ids, by simp, ?_⟩
        intro x hx hx1
        simp only [List.map_cons, List.map_nil, List.mem_singleton] at hx1
        rcases List.mem_map.mp hx with ⟨p, hp, hpid⟩
        have := hwf.pos_seq p hp
        omega
      · intro p hp
        rw [cartAddSuccessState_cart_positions] at hp
        rw [cartAddSuccessState_seq]
        rcases List.mem_append.mp hp with hp | hp
        · have := hwf.pos_seq p hp
          omega
        · simp only [List.mem_singleton] at hp
          subst hp
          simp
      · intro p hp
        rw [cartAddSuccessState_cart_positions] at hp
        rw [Ne, cartAddSuccessState_findStock]
        have hiff := findStock_saveStock_isSome st
          { stock with quantity := stock.quantity - q.toNat }
        rcases List.mem_append.mp hp with hp | hp
        · have hold := hwf.pos_stock p hp
          intro hnone
          exact hold ((hiff p.stock).mp hnone)
        · simp only [List.mem_singleton] at hp
          subst hp
          intro hnone
          have := (hiff s).mp hnone
          rw [hst] at this
          cases this
    · intro sid
      simp only [DBState.measureOf, cartAddSuccessState_reserved,
        cartAddSuccessState_stockQty]
      by_cases hsid : sid = s
      · subst hsid
        have hfind : st.findStock ({ stock with
            quantity := stock.quantity - q.toNat } : Stock).id = some stock := by
          simpa [hid] using hst
        have hself := stockQty_saveStock_self hfind
        simp only [] at hself
        have hq0 : st.stockQty sid = stock.quantity := by
          simp [DBState.stockQty, hst]
        rw [← hid] at hq0 ⊢
        rw [hself, hq0]
        simp
        omega
      · have hne := @stockQty_saveStock_ne st
          { stock with quantity := stock.quantity - q.toNat } sid
          (by simpa [hid] using hsid)
        rw [hne]
        have hz : (if (s == sid) then q.toNat else 0) = 0 := by
          have hcon : ¬ s = sid := fun hcon => hsid hcon.symm
          simp [hcon]
        rw [hz]
        omega

/-- Mapping an id-preserving row update leaves the id column unchanged. -/
theorem map_ids_of_id_preserving (l : List CartPosition)
    (f : CartPosition → CartPosition) (hf : ∀ p, (f p).id = p.id) :
    (l.map f).map (fun p => p.id) = l.map (fun p => p.id) := by
  rw [List.map_map]
  exact List.map_congr_left (fun a _ => hf a)

/-- Result analysis for cart line update: nothing changed, or the decrease
path returned the delta and wrote the quantity, or the increase path took
the delta and wrote quantity plus the re-snapshotted price. -/
theorem update_result (st : DBState) (posId : Nat) (qv : PyVal) :
    (CartPositionViewSet.update st posId false false false (some qv)).2 = st ∨
    (∃ pos stock q, st.findCartPosition posId = some pos ∧
      st.findStock pos.stock = some stock ∧ qv = PyVal.pyInt q ∧ 0 < q ∧
      q ≤ (pos.quantity : Int) ∧
      (CartPositionViewSet.update st posId false false false (some qv)).2
        = cartQuantityWriteBack (st.saveStock { stock with
            quantity := stock.quantity + (pos.quantity - q.toNat) })
            posId q.toNat) ∨
    (∃ pos stock q, st.findCartPosition posId = some pos ∧
      st.findStock pos.stock = some stock ∧ qv = PyVal.pyInt q ∧
      (pos.quantity : Int) < q ∧ q.toNat - pos.quantity ≤ stock.quantity ∧
      (CartPositionViewSet.update st posId false false false (some qv)).2
        = cartQuantityPriceWriteBack (st.saveStock { stock with
            quantity := stock.quantity - (q.toNat - pos.quantity) })
            posId q.toNat stock.price) := by
  rcases qv with q | b | s | _
  case pyBool =>
    left
    cases b <;> simp [CartPositionViewSet.update, PyVal.leZero,
      PyVal.isIntType]
  case pyStr =>
    left
    simp [CartPositionViewSet.update, PyVal.leZero]
  case pyNone =>
    left
    simp [CartPositionViewSet.update, PyVal.leZero]
  case pyInt =>
    by_cases hq : q ≤ 0
    · left
      simp [CartPositionViewSet.update, PyVal.leZero, hq]
    · cases hpos : st.findCartPosition posId with
      | none =>
        left
        simp [CartPositionViewSet.update, PyVal.leZero, hq,
          PyVal.isIntType, hpos]
      | some pos =>
        cases hstn : st.findStock pos.stock with
        | none =>
          left
          simp [CartPositionViewSet.update, PyVal.leZero, hq,
            PyVal.isIntType, hpos, hstn]
        | some stock =>
          by_cases hdec : q ≤ (pos.quantity : Int)
          · refine Or.inr (Or.inl ⟨pos, stock, q, rfl, hstn, rfl,
              by omega, hdec, ?_⟩)
            simp [CartPositionViewSet.update, PyVal.leZero, hq,
              PyVal.isIntType, hpos, hstn, hdec, PyVal.toIntVal]
          · have hdecn : ¬ q ≤ (pos.quantity : Int) := hdec
            cases hsupn : st.findSupplier stock.supplier with
            | none =>
              left
              simp [CartPositionViewSet.update, PyVal.leZero, hq,
                PyVal.isIntType, hpos, hstn, hdecn, hsupn, PyVal.toIntVal]
            | some sup =>
              by_cases hos : sup.order_status
              case neg =>
                left
                have hos' : sup.order_status = false := by simpa using hos
                simp [CartPositionViewSet.update, PyVal.leZero, hq,
                  PyVal.isIntType, hpos, hstn, hdecn, hsupn, hos',
                  PyVal.toIntVal]
              case pos =>
                by_cases havail : q.toNat - pos.quantity ≤ stock.quantity
                · have havail' : q ≤ (stock.quantity : Int) + (pos.quantity : Int) := by
                    omega
                  refine Or.inr (Or.inr ⟨pos, stock, q, rfl, hstn, rfl,
                    by omega, havail, ?_⟩)
                  simp [CartPositionViewSet.update, PyVal.leZero, hq,
                    PyVal.isIntType, hpos, hstn, hdecn, hsupn, hos, havail,
                    havail', PyVal.toIntVal]
                · have havailn : ¬ q ≤ (stock.quantity : Int) + (pos.quantity : Int) := by
                    omega
                  left
                  simp [CartPositionViewSet.update, PyVal.leZero, hq,
                    PyVal.isIntType, hpos, hstn, hdecn, hsupn, hos, havailn,
                    PyVal.toIntVal]

/-- The quantity-only write-back as a `mapWriteBack`. -/
theorem cartQuantityWriteBack_eq (st : DBState) (posId qn : Nat) :
    cartQuantityWriteBack st posId qn
      = mapWriteBack st (fun p =>
          if p.id == posId then { p with quantity := qn } else p) := rfl

/-- The quantity-and-price write-back as a `mapWriteBack`. -/
theorem cartQuantityPriceWriteBack_eq (st : DBState) (posId qn : Nat)
    (pr : ℚ) :
    cartQuantityPriceWriteBack st posId qn pr
      = mapWriteBack st (fun p =>
          if p.id == posId then { p with quantity := qn, price := pr }
          else p) := rfl

/-- A row save followed by an id-preserving, stock-preserving write-back of
the looked-up cart position keeps the store well-formed and, when the row
save balances the position's quantity change, conserves on-hand plus
reserved per stock. -/
theorem writeBack_preserves (st : DBState) (posId : Nat)
    (pos : CartPosition) (stock X : Stock)
    (g : CartPosition → CartPosition) (hwf : WF st)
    (hpos : st.findCartPosition posId = some pos)
    (hstn : st.findStock pos.stock = some stock)
    (hXid : X.id = stock.id)
    (hg_id : ∀ p, (g p).id = p.id)
    (hg_stock : ∀ p, (g p).stock = p.stock)
    (hbal : X.quantity + (g pos).quantity
      = stock.quantity + pos.quantity) :
    WF (mapWriteBack (st.saveStock X)
      (fun p => if p.id == posId then g p else p)) ∧
    (∀ sid, (mapWriteBack (st.saveStock X)
        (fun p => if p.id == posId then g p else p)).measureOf sid
      = st.measureOf sid) := by
  have hsid0 : stock.id = pos.stock := findStock_id hstn
  have hF_id : ∀ p : CartPosition,
      ((fun p => if p.id == posId then g p else p) p).id = p.id := by
    intro p
    by_cases h : p.id = posId <;> simp [h, hg_id]
  have hF_stock : ∀ p : CartPosition,
      ((fun p => if p.id == posId then g p else p) p).stock = p.stock := by
    intro p
    by_cases h : p.id = posId <;> simp [h, hg_stock]
  have hcp : (mapWriteBack (st.saveStock X)
      (fun p => if p.id == posId then g p else p)).cart_positions
      = st.cart_positions.map
          (fun p => if p.id == posId then g p else p) := rfl
  have hpos' : st.cart_positions.find? (fun p => p.id == posId) = some pos :=
    hpos
  constructor
  · constructor
    · rw [hcp, map_ids_of_id_preserving _ _ hF_id]
      exact hwf.pos_ids
    · intro p hp
      rw [hcp] at hp
      rcases List.mem_map.mp hp with ⟨p0, hp0, rfl⟩
      have hseq : (mapWriteBack (st.saveStock X)
          (fun p => if p.id == posId then g p else p)).seq = st.seq := rfl
      rw [hseq, hF_id p0]
      exact hwf.pos_seq p0 hp0
    · intro p hp
      rw [hcp] at hp
      rcases List.mem_map.mp hp with ⟨p0, hp0, rfl⟩
      have hfs : ∀ x, (mapWriteBack (st.saveStock X)
          (fun p => if p.id == posId then g p else p)).findStock x
          = (st.saveStock X).findStock x := fun _ => rfl
      rw [hfs, hF_stock p0, Ne, findStock_saveStock_isSome]
      exact hwf.pos_stock p0 hp0
  · intro sid
    have hsq : (mapWriteBack (st.saveStock X)
        (fun p => if p.id == posId then g p else p)).stockQty sid
        = (st.saveStock X).stockQty sid := rfl
    have hrs : (mapWriteBack (st.saveStock X)
        (fun p => if p.id == posId then g p else p)).reserved sid
        = qtySum (st.cart_positions.map
            (fun p => if p.id == posId then g p else p)) sid := rfl
    have hsum := qtySum_map_update st.cart_positions posId pos g sid
      hwf.pos_ids hpos'
    simp only [DBState.measureOf, hsq, hrs]
    have hres_eq : st.reserved sid = qtySum st.cart_positions sid := rfl
    rw [hres_eq]
    by_cases hs : sid = pos.stock
    · subst hs
      have hfind : st.findStock X.id = some stock := by
        rw [hXid, hsid0]
        exact hstn
      have hself := stockQty_saveStock_self hfind
      rw [hXid, hsid0] at hself
      rw [hself]
      have hq0 : st.stockQty pos.stock = stock.quantity := by
        simp [DBState.stockQty, hstn]
      rw [hq0]
      have h1 : qtyOf pos pos.stock = pos.quantity := by simp [qtyOf]
      have h2 : qtyOf (g pos) pos.stock = (g pos).quantity := by
        simp [qtyOf, hg_stock pos]
      rw [h1, h2] at hsum
      omega
    · have hne := @stockQty_saveStock_ne st X sid
        (by rw [hXid, hsid0]; exact hs)
      rw [hne]
      have hsne : ¬ pos.stock = sid := fun hcon => hs hcon.symm
      have h1 : qtyOf pos sid = 0 := by simp [qtyOf, hsne]
      have h2 : qtyOf (g pos) sid = 0 := by
        simp [qtyOf, hg_stock pos, hsne]
      rw [h1, h2] at hsum
      omega

/-- Cart line update preserves well-formedness and the conserved per-stock
sum. -/
theorem update_preserves (st : DBState) (posId : Nat) (qv : PyVal)
    (hwf : WF st) :
    WF (CartPositionViewSet.update st posId false false false (some qv)).2 ∧
    (∀ sid,
      (CartPositionViewSet.update st posId false false false
        (some qv)).2.measureOf sid = st.measureOf sid) := by
  rcases update_result st posId qv with heq |
    ⟨pos, stock, q, hpos, hstn, hqv, hq, hle, heq⟩ |
    ⟨pos, stock, q, hpos, hstn, hqv, hgt, havail, heq⟩
  · rw [heq]; exact ⟨hwf, fun _ => rfl⟩
  · rw [heq, cartQuantityWriteBack_eq]
    exact writeBack_preserves st posId pos stock _ _ hwf hpos hstn rfl
      (fun p => rfl) (fun p => rfl)
      (by show stock.quantity + (pos.quantity - q.toNat) + q.toNat
            = stock.quantity + pos.quantity
          omega)
  · rw [heq, cartQuantityPriceWriteBack_eq]
    exact writeBack_preserves st posId pos stock _ _ hwf hpos hstn rfl
      (fun p => rfl) (fun p => rfl)
      (by show stock.quantity - (q.toNat - pos.quantity) + q.toNat
            = stock.quantity + pos.quantity
          omega)

/-- Result analysis for cart line removal: a missing position or stock
leaves the store unchanged; otherwise the stock is restocked and the row
deleted. -/
theorem destroy_result (st : DBState) (posId : Nat) :
    (CartPositionViewSet.destroy st posId).2 = st ∨
    ∃ pos stock, st.findCartPosition posId = some pos ∧
      st.findStock pos.stock = some stock ∧
      (CartPositionViewSet.destroy st posId).1 = .ok ∧
      (CartPositionViewSet.destroy st posId).2
        = cartRemoveState st posId stock pos.quantity := by
  cases hpos : st.findCartPosition posId with
  | none => left; simp [CartPositionViewSet.destroy, hpos]
  | some pos =>
    cases hstn : st.findStock pos.stock with
    | none => left; simp [CartPositionViewSet.destroy, hpos, hstn]
    | some stock =>
      right
      refine ⟨pos, stock, rfl, hstn, ?_, ?_⟩ <;>
        simp [CartPositionViewSet.destroy, hpos, hstn]

/-- Cart line removal preserves well-formedness and the conserved per-stock
sum. -/
theorem destroy_preserves (st : DBState) (posId : Nat) (hwf : WF st) :
    WF (CartPositionViewSet.destroy st posId).2 ∧
    (∀ sid, (CartPositionViewSet.destroy st posId).2.measureOf sid
      = st.measureOf sid) := by
  rcases destroy_result st posId with heq | ⟨pos, stock, hpos, hstn, _, heq⟩
  · rw [heq]; exact ⟨hwf, fun _ => rfl⟩
  · rw [heq]
    have hsid0 : stock.id = pos.stock := findStock_id hstn
    have hpos' : st.cart_positions.find? (fun p => p.id == posId) = some pos :=
      hpos
    constructor
    · constructor
      · have hsub : List.Sublist
            ((st.cart_positions.filter
              (fun p => !(p.id == posId))).map (fun p => p.id))
            (st.cart_positions.map (fun p => p.id)) :=
          (List.filter_sublist st.cart_positions).map (fun p => p.id)
        exact hwf.pos_ids.sublist hsub
      · intro p hp
        have hp' := (List.mem_filter.mp hp).1
        exact hwf.pos_seq p hp'
      · intro p hp
        have hp' := (List.mem_filter.mp hp).1
        have hfs : ∀ x, (cartRemoveState st posId stock
            pos.quantity).findStock x
            = (st.saveStock { stock with
                quantity := stock.quantity + pos.quantity }).findStock x :=
          fun _ => rfl
        rw [hfs, Ne, findStock_saveStock_isSome]
        exact hwf.pos_stock p hp'
    · intro sid
      have hsq : (cartRemoveState st posId stock pos.quantity).stockQty sid
          = (st.saveStock { stock with
              quantity := stock.quantity + pos.quantity }).stockQty sid := rfl
      have hrs : (cartRemoveState st posId stock pos.quantity).reserved sid
          = qtySum (st.cart_positions.filter
              (fun p => !(p.id == posId))) sid := rfl
      have hsum := qtySum_filter_out st.cart_positions posId pos sid
        hwf.pos_ids hpos'
      simp only [DBState.measureOf, hsq, hrs]
      have hres_eq : st.reserved sid = qtySum st.cart_positions sid := rfl
      rw [hres_eq]
      by_cases hs : sid = pos.stock
      · subst hs
        have hfind : st.findStock ({ stock with
            quantity := stock.quantity + pos.quantity } : Stock).id
            = some stock := by
          simpa [hsid0] using hstn
        have hself := stockQty_saveStock_self hfind
        simp only [] at hself
        rw [← hsid0] at hsum ⊢
        rw [hself]
        have hq0 : st.stockQty stock.id = stock.quantity := by
          simp [DBState.stockQty, hsid0, hstn]
        rw [hq0]
        have h1 : qtyOf pos stock.id = pos.quantity := by
          simp [qtyOf, hsid0]
        rw [h1] at hsum
        omega
      · have hne := @stockQty_saveStock_ne st
          { stock with quantity := stock.quantity + pos.quantity } sid
          (by simpa [hsid0] using hs)
        rw [hne]
        have hsne : ¬ pos.stock = sid := fun hcon => hs hcon.symm
        have h1 : qtyOf pos sid = 0 := by simp [qtyOf, hsne]
        rw [h1] at hsum
        omega

/-- Cart clearing always succeeds: it deletes exactly the cart's lines and
adds their quantities back to their stocks; well-formedness and the
conserved per-stock sum are preserved. -/
theorem clear_spec (st : DBState) (cartId : Nat) (hwf : WF st) :
    (ShoppingCartViewSet.destroy st cartId).1 = .ok ∧
    (ShoppingCartViewSet.destroy st cartId).2.cart_positions
      = st.cart_positions.filter (fun p => !(p.shopping_cart == cartId)) ∧
    (∀ sid, (ShoppingCartViewSet.destroy st cartId).2.stockQty sid
      = st.stockQty sid + qtySum (st.cart_positions.filter
          (fun p => p.shopping_cart == cartId)) sid) ∧
    WF (ShoppingCartViewSet.destroy st cartId).2 ∧
    (∀ sid, (ShoppingCartViewSet.destroy st cartId).2.measureOf sid
      = st.measureOf sid) := by
  have hfields := restockAll_fields
    ((st.cart_positions.filter (fun p => p.shopping_cart == cartId)).map
      (fun p => (p.stock, p.quantity))) st
  have hcp : (ShoppingCartViewSet.destroy st cartId).2.cart_positions
      = st.cart_positions.filter (fun p => !(p.shopping_cart == cartId)) := by
    have : (ShoppingCartViewSet.destroy st cartId).2.cart_positions
        = ((st.restockAll
            ((st.cart_positions.filter
              (fun p => p.shopping_cart == cartId)).map
              (fun p => (p.stock, p.quantity)))).cart_positions).filter
            (fun p => !(p.shopping_cart == cartId)) := rfl
    rw [this, hfields.1]
  have hpres : ∀ it ∈ (st.cart_positions.filter
      (fun p => p.shopping_cart == cartId)).map
      (fun p => (p.stock, p.quantity)),
      st.findStock it.1 ≠ Option.none := by
    intro it hit
    rcases List.mem_map.mp hit with ⟨p, hp, rfl⟩
    exact hwf.pos_stock p (List.mem_filter.mp hp).1
  have hsq : ∀ sid, (ShoppingCartViewSet.destroy st cartId).2.stockQty sid
      = st.stockQty sid + qtySum (st.cart_positions.filter
          (fun p => p.shopping_cart == cartId)) sid := by
    intro sid
    have h0 : (ShoppingCartViewSet.destroy st cartId).2.stockQty sid
        = (st.restockAll
            ((st.cart_positions.filter
              (fun p => p.shopping_cart == cartId)).map
              (fun p => (p.stock, p.quantity)))).stockQty sid := rfl
    rw [h0, stockQty_restockAll _ st sid hpres, itemsSum_map_positions]
  refine ⟨rfl, hcp, hsq, ?_, ?_⟩
  · constructor
    · rw [hcp]
      have hsub : List.Sublist
          ((st.cart_positions.filter
            (fun p => !(p.shopping_cart == cartId))).map (fun p => p.id))
          (st.cart_positions.map (fun p => p.id)) :=
        (List.filter_sublist st.cart_positions).map (fun p => p.id)
      exact hwf.pos_ids.sublist hsub
    · intro p hp
      rw [hcp] at hp
      have hp' := (List.mem_filter.mp hp).1
      have hseq : (ShoppingCartViewSet.destroy st cartId).2.seq = st.seq := by
        have : (ShoppingCartViewSet.destroy st cartId).2.seq
            = (st.restockAll
                ((st.cart_positions.filter
                  (fun p => p.shopping_cart == cartId)).map
                  (fun p => (p.stock, p.quantity)))).seq := rfl
        rw [this, hfields.2.2.2]
      rw [hseq]
      exact hwf.pos_seq p hp'
    · intro p hp
      rw [hcp] at hp
      have hp' := (List.mem_filter.mp hp).1
      have hfs : ∀ x, (ShoppingCartViewSet.destroy st cartId).2.findStock x
          = (st.restockAll
              ((st.cart_positions.filter
                (fun p => p.shopping_cart == cartId)).map
                (fun p => (p.stock, p.quantity)))).findStock x := fun _ => rfl
      rw [hfs, Ne, findStock_restockAll_none]
      exact hwf.pos_stock p hp'
  · intro sid
    have hrs : (ShoppingCartViewSet.destroy st cartId).2.reserved sid
        = qtySum (st.cart_positions.filter
            (fun p => !(p.shopping_cart == cartId))) sid := by
      have : (ShoppingCartViewSet.destroy st cartId).2.reserved sid
          = qtySum ((ShoppingCartViewSet.destroy st cartId).2.cart_positions)
              sid := rfl
      rw [this, hcp]
    have hpart := qtySum_partition st.cart_positions
      (fun p => p.shopping_cart == cartId) sid
    have hres_eq : st.reserved sid = qtySum st.cart_positions sid := rfl
    simp only [DBState.measureOf, hrs, hsq sid, hres_eq]
    omega

/-- Every cart-engine operation preserves well-formedness and the conserved
per-stock sum of on-hand plus reserved quantity. -/
theorem applyCartOp_preserves (st : DBState) (op : CartOp) (hwf : WF st) :
    WF (applyCartOp st op) ∧
    (∀ sid, (applyCartOp st op).measureOf sid = st.measureOf sid) := by
  cases op with
  | add c s q => exact create_preserves st c s q hwf
  | update p q => exact update_preserves st p q hwf
  | remove p => exact destroy_preserves st p hwf
  | clear c =>
    exact ⟨(clear_spec st c hwf).2.2.2.1, (clear_spec st c hwf).2.2.2.2⟩

/-- Sequences of cart-engine operations preserve well-formedness and the
conserved per-stock sum. -/
theorem runCartOps_preserves (ops : List CartOp) (st : DBState)
    (hwf : WF st) :
    WF (runCartOps st ops) ∧
    (∀ sid, (runCartOps st ops).measureOf sid = st.measureOf sid) := by
  induction ops generalizing st with
  | nil => exact ⟨hwf, fun _ => rfl⟩
  | cons op rest ih =>
    have h1 := applyCartOp_preserves st op hwf
    have h2 := ih (applyCartOp st op) h1.1
    simp only [runCartOps, List.foldl_cons] at h2 ⊢
    exact ⟨h2.1, fun sid => (h2.2 sid).trans (h1.2 sid)⟩

/-! Claim theorems. -/

/-- C10: an order with zero positions has `confirmed = true` and
`delivered = true` (conjunction over the empty set), `total_quantity = 0`
and `total_amount = 0`. -/
theorem C10_empty_order_derived (st : DBState) (o : Order) (multiplier : ℚ)
    (h : st.orderPositionsOf o.id = []) :
    Order.check_confirmed st o = true ∧
    Order.check_delivered st o = true ∧
    Order.calculate_total_quantity st o = 0 ∧
    Order.calculate_total_amount multiplier st o = 0 := by
  refine ⟨?_, ?_, ?_, ?_⟩ <;>
    simp [Order.check_confirmed, Order.check_delivered,
      Order.calculate_total_quantity, Order.calculate_total_amount, h]

/-- Witness for C10 on the empty order (id 21) of the example store. -/
theorem C10_empty_order_derived_witness :
    Order.check_confirmed exState
        { id := 21, purchaser := 1, chain_store := 1, status := "saved" } = true ∧
    Order.check_delivered exState
        { id := 21, purchaser := 1, chain_store := 1, status := "saved" } = true ∧
    Order.calculate_total_quantity exState
        { id := 21, purchaser := 1, chain_store := 1, status := "saved" } = 0 ∧
    Order.calculate_total_amount 2 exState
        { id := 21, purchaser := 1, chain_store := 1, status := "saved" } = 0 :=
  C10_empty_order_derived exState
    { id := 21, purchaser := 1, chain_store := 1, status := "saved" } 2 (by decide)

/-- C4: an order whose positions all reference stocks of one single supplier
has `total_amount = Σ quantity × price`; an order whose positions span two
distinct suppliers has `total_amount = multiplier × Σ quantity × price`. -/
theorem C4_surcharge (multiplier : ℚ) (st : DBState) (o : Order) :
    (∀ sup0 : Nat,
      (∀ p ∈ st.orderPositionsOf o.id,
          (st.findStock p.stock).map Stock.supplier = some sup0) →
      Order.calculate_total_amount multiplier st o =
        ((st.orderPositionsOf o.id).map (fun p => (p.quantity : ℚ) * p.price)).sum) ∧
    (∀ p₁ ∈ st.orderPositionsOf o.id, ∀ p₂ ∈ st.orderPositionsOf o.id,
      ∀ s₁ s₂ : Nat,
        (st.findStock p₁.stock).map Stock.supplier = some s₁ →
        (st.findStock p₂.stock).map Stock.supplier = some s₂ →
        s₁ ≠ s₂ →
        Order.calculate_total_amount multiplier st o =
          multiplier *
            ((st.orderPositionsOf o.id).map (fun p => (p.quantity : ℚ) * p.price)).sum) := by
  constructor
  · intro sup0 hone
    have hall : ∀ x ∈ (st.orderPositionsOf o.id).filterMap
        (fun p => (st.findStock p.stock).map Stock.supplier), x = sup0 := by
      intro x hx
      rcases List.mem_filterMap.mp hx with ⟨p, hp, hpx⟩
      exact (Option.some_inj.mp ((hone p hp).symm.trans hpx)).symm
    have hlen := dedup_length_le_one
      (fun a ha b hb => (hall a ha).trans (hall b hb).symm)
    simp only [Order.calculate_total_amount]
    rw [if_neg (by omega)]
    rfl
  · intro p₁ hp₁ p₂ hp₂ s₁ s₂ h₁ h₂ hne
    have hm₁ : s₁ ∈ (st.orderPositionsOf o.id).filterMap
        (fun p => (st.findStock p.stock).map Stock.supplier) :=
      List.mem_filterMap.mpr ⟨p₁, hp₁, h₁⟩
    have hm₂ : s₂ ∈ (st.orderPositionsOf o.id).filterMap
        (fun p => (st.findStock p.stock).map Stock.supplier) :=
      List.mem_filterMap.mpr ⟨p₂, hp₂, h₂⟩
    have hlen := one_lt_dedup_length hm₁ hm₂ hne
    simp only [Order.calculate_total_amount]
    rw [if_pos hlen]
    rfl

/-- Witness for C4: the single-supplier order 23 of the example store totals
its plain line sum 50, while the two-supplier order 20 (lines 3 × 10 and
2 × 5) totals 11/10 × 40 = 44. -/
theorem C4_surcharge_witness :
    Order.calculate_total_amount (11/10) exState
        { id := 23, purchaser := 1, chain_store := 1, status := "saved" } = 50 ∧
    Order.calculate_total_amount (11/10) exState
        { id := 20, purchaser := 1, chain_store := 1, status := "saved" } = 44 := by
  constructor
  · exact ((C4_surcharge (11/10) exState
      { id := 23, purchaser := 1, chain_store := 1, status := "saved" }).1 1
      (by decide)).trans
      (by norm_num [exState, DBState.orderPositionsOf])
  · exact ((C4_surcharge (11/10) exState
      { id := 20, purchaser := 1, chain_store := 1, status := "saved" }).2
      { id := 40, order := 20, stock := 1, quantity := 3, price := 10,
        confirmed := false, delivered := false } (by decide)
      { id := 41, order := 20, stock := 2, quantity := 2, price := 5,
        confirmed := false, delivered := false } (by decide)
      1 2 (by decide) (by decide) (by decide)).trans
      (by norm_num [exState, DBState.orderPositionsOf])

/-- C1: adding a line to the cart fails when the quantity is not integral or
not positive, fails when the stock's supplier is not accepting orders, fails
when the quantity exceeds the stock's on-hand quantity, and fails when the
cart already holds a position for this stock; on success it removes exactly
the requested quantity from the stock and snapshots the stock's current
price into the new cart position. -/
theorem C1_cart_add (st : DBState) (cartId stockId : Nat)
    (stock : Stock) (sup : Supplier)
    (hst : st.findStock stockId = some stock)
    (hsup : st.findSupplier stock.supplier = some sup) :
    (∀ v : PyVal, v.isIntType = false →
      (CartPositionViewSet.create st cartId (some stockId) v).1 ≠ .ok) ∧
    (∀ q : Int, q ≤ 0 →
      (CartPositionViewSet.create st cartId (some stockId) (.pyInt q)).1 ≠ .ok) ∧
    (∀ q : Int, sup.order_status = false →
      (CartPositionViewSet.create st cartId (some stockId) (.pyInt q)).1 ≠ .ok) ∧
    (∀ q : Int, (stock.quantity : Int) < q →
      (CartPositionViewSet.create st cartId (some stockId) (.pyInt q)).1 ≠ .ok) ∧
    (∀ q : Int,
      st.cart_positions.any
        (fun p => p.stock == stockId && p.shopping_cart == cartId) = true →
      (CartPositionViewSet.create st cartId (some stockId) (.pyInt q)).1 ≠ .ok) ∧
    (∀ q : Int, 0 < q → q ≤ (stock.quantity : Int) →
      sup.order_status = true →
      st.cart_positions.any
        (fun p => p.stock == stockId && p.shopping_cart == cartId) = false →
      (CartPositionViewSet.create st cartId (some stockId) (.pyInt q)).1 = .ok ∧
      (CartPositionViewSet.create st cartId (some stockId) (.pyInt q)).2.stockQty stockId
          + q.toNat = stock.quantity ∧
      (CartPositionViewSet.create st cartId (some stockId) (.pyInt q)).2.cart_positions
        = st.cart_positions ++
          [{ id := st.seq, shopping_cart := cartId, stock := stockId,
             quantity := q.toNat, price := stock.price }]) := by
  have main : ∀ v : PyVal,
      (v.isIntType = false ∨ (∃ q : Int, v = .pyInt q ∧ q ≤ 0) ∨
        sup.order_status = false ∨
        (∃ q : Int, v = .pyInt q ∧ (stock.quantity : Int) < q) ∨
        st.cart_positions.any
          (fun p => p.stock == stockId && p.shopping_cart == cartId) = true) →
      (CartPositionViewSet.create st cartId (some stockId) v).1 ≠ .ok := by
    intro v hv
    by_cases ht : v.truthy
    · by_cases hdup : st.cart_positions.any
          (fun p => p.stock == stockId && p.shopping_cart == cartId)
      · simp [CartPositionViewSet.create, ht, hdup]
      · by_cases hos : sup.order_status
        · cases hle : v.leZero with
          | error e =>
            simp [CartPositionViewSet.create, ht, hdup, hst, hsup, hos, hle]
          | ok le =>
            cases le with
            | true =>
              simp [CartPositionViewSet.create, ht, hdup, hst, hsup, hos, hle]
            | false =>
              by_cases hint : v.isIntType
              · rcases hv with hv | ⟨q, rfl, hq⟩ | hv | ⟨q, rfl, hq⟩ | hv
                · exact absurd hint (by simp [hv])
                · exact absurd hle (by simp [PyVal.leZero, hq])
                · exact absurd hos (by simp [hv])
                · have hgt : ((stock.quantity : Int) < q) = True := by
                    simp [hq]
                  simp [CartPositionViewSet.create, ht, hdup, hst, hsup, hos,
                    hle, hint, hgt, PyVal.toIntVal]
                · exact absurd hdup (by simp [hv])
              · have hint' : v.isIntType = false := by simpa using hint
                simp [CartPositionViewSet.create, ht, hdup, hst, hsup, hos,
                  hle, hint']
        · have hos' : sup.order_status = false := by simpa using hos
          simp [CartPositionViewSet.create, ht, hdup, hst, hsup, hos']
    · simp [CartPositionViewSet.create, ht]
  refine ⟨?_, ?_, ?_, ?_, ?_, ?_⟩
  · intro v hv; exact main v (Or.inl hv)
  · intro q hq; exact main _ (Or.inr (Or.inl ⟨q, rfl, hq⟩))
  · intro q hq; exact main _ (Or.inr (Or.inr (Or.inl hq)))
  · intro q hq; exact main _ (Or.inr (Or.inr (Or.inr (Or.inl ⟨q, rfl, hq⟩))))
  · intro q hq; exact main _ (Or.inr (Or.inr (Or.inr (Or.inr hq))))
  · intro q hq hle hos hdup
    have ht : (PyVal.pyInt q).truthy = true := by
      simp [PyVal.truthy]
      omega
    have hlez : (PyVal.pyInt q).leZero = .ok false := by
      simp [PyVal.leZero]
      omega
    have hgt : ¬ ((stock.quantity : Int) < q) := by omega
    have hres : CartPositionViewSet.create st cartId (some stockId) (.pyInt q)
        = (.ok, cartAddSuccessState st cartId stockId stock q.toNat) := by
      simp [CartPositionViewSet.create, ht, hdup, hst, hsup, hos, hlez,
        PyVal.isIntType, hgt, PyVal.toIntVal]
    have hcp := cartAddSuccessState_cart_positions st cartId stockId stock
      q.toNat
    refine ⟨by rw [hres], ?_, by rw [hres]; exact hcp⟩
    rw [hres]
    have hid : stock.id = stockId := findStock_id hst
    have hfind : st.findStock ({ stock with quantity := stock.quantity - q.toNat } : Stock).id
        = some stock := by
      simpa [hid] using hst
    have hq1 : (cartAddSuccessState st cartId stockId stock q.toNat).stockQty
          stockId
        = (st.saveStock { stock with
            quantity := stock.quantity - q.toNat }).stockQty stockId := rfl
    rw [hq1, ← hid]
    rw [stockQty_saveStock_self hfind]
    simp
    omega

/-- Witness for C1: in the example store the purchaser adds 3 of stock 2
(price 5, quantity 7, accepting supplier 2) to cart 1; the request succeeds,
stock 2 drops to 4 and the new position snapshots price 5. -/
theorem C1_cart_add_witness :
    (CartPositionViewSet.create exState 1 (some 2) (.pyInt 3)).1 = .ok ∧
    (CartPositionViewSet.create exState 1 (some 2) (.pyInt 3)).2.stockQty 2
        + (3 : Int).toNat = 7 ∧
    (CartPositionViewSet.create exState 1 (some 2) (.pyInt 3)).2.cart_positions
      = exState.cart_positions ++
        [{ id := 100, shopping_cart := 1, stock := 2,
           quantity := (3 : Int).toNat, price := 5 }] :=
  (C1_cart_add exState 1 2
      { id := 2, supplier := 2, price := 5, quantity := 7 }
      { id := 2, user := 11, order_status := true }
      (by decide) (by decide)).2.2.2.2.2 3
    (by decide) (by decide) rfl (by decide)

/-- Cancelling an already-cancelled order is rejected. -/
theorem destroy_cancelled {st : DBState} {orderId : Nat} {o : Order}
    (h : st.findOrder orderId = some o) (hc : o.status = "cancelled") :
    (OrderViewSet.destroy st orderId).1
      = .rejected "Order is already cancelled" := by
  simp [OrderViewSet.destroy, h, hc]

/-- C3: cancelling an order fails when the order is already cancelled and
when any of its positions is confirmed or delivered; on success the order's
status becomes cancelled, each position's quantity is added back to its
stock, and a second cancel attempt on the same order fails. -/
theorem C3_cancel_order (st : DBState) (orderId : Nat) (inst : Order)
    (hord : st.findOrder orderId = some inst)
    (hpres : ∀ p ∈ st.orderPositionsOf orderId,
      st.findStock p.stock ≠ Option.none) :
    (inst.status = "cancelled" →
      (OrderViewSet.destroy st orderId).1 ≠ .ok ∧
      (OrderViewSet.destroy st orderId).2 = st) ∧
    ((∃ p ∈ st.orderPositionsOf orderId,
        p.confirmed = true ∨ p.delivered = true) →
      (OrderViewSet.destroy st orderId).1 ≠ .ok ∧
      (OrderViewSet.destroy st orderId).2 = st) ∧
    (inst.status ≠ "cancelled" →
      (∀ p ∈ st.orderPositionsOf orderId,
        p.confirmed = false ∧ p.delivered = false) →
      (OrderViewSet.destroy st orderId).1 = .ok ∧
      (OrderViewSet.destroy st orderId).2.findOrder orderId
          = some { inst with status := "cancelled" } ∧
      (∀ sid, (OrderViewSet.destroy st orderId).2.stockQty sid
          = st.stockQty sid +
            itemsSum ((st.orderPositionsOf orderId).map
              (fun p => (p.stock, p.quantity))) sid) ∧
      (OrderViewSet.destroy (OrderViewSet.destroy st orderId).2 orderId).1
          ≠ .ok) := by
  refine ⟨?_, ?_, ?_⟩
  · intro hcanc
    have : (inst.status == "cancelled") = true := by simp [hcanc]
    constructor <;> simp [OrderViewSet.destroy, hord, this]
  · intro hconf
    by_cases hcanc : inst.status == "cancelled"
    · constructor <;> simp [OrderViewSet.destroy, hord, hcanc]
    · have hany : (st.order_positions.filter (fun p => p.order == orderId)).any
          (fun p => p.confirmed || p.delivered) = true := by
        rcases hconf with ⟨p, hp, hflag⟩
        refine List.any_eq_true.mpr ⟨p, ?_, ?_⟩
        · simpa [DBState.orderPositionsOf] using hp
        · rcases hflag with h | h <;> simp [h]
      constructor <;>
        simp [OrderViewSet.destroy, hord, hcanc, hany]
  · intro hcanc hflags
    have hc : (inst.status == "cancelled") = false := by simp [hcanc]
    have hany : (st.order_positions.filter (fun p => p.order == orderId)).any
        (fun p => p.confirmed || p.delivered) = false := by
      rw [Bool.eq_false_iff, Ne, List.any_eq_true]
      rintro ⟨p, hp, hflag⟩
      have hp' : p ∈ st.orderPositionsOf orderId := by
        simpa [DBState.orderPositionsOf] using hp
      rcases hflags p hp' with ⟨h1, h2⟩
      simp [h1, h2] at hflag
    have hres : OrderViewSet.destroy st orderId
        = (.ok, ({ st with orders := st.orders.map (fun o =>
            if o.id == orderId then { o with status := "cancelled" } else o) }
              : DBState).restockAll
            ((st.order_positions.filter (fun p => p.order == orderId)).map
              (fun p => (p.stock, p.quantity)))) := by
      simp [OrderViewSet.destroy, hord, hc, hany]
    set st1 : DBState := { st with orders := st.orders.map (fun o =>
      if o.id == orderId then { o with status := "cancelled" } else o) } with hst1
    have horders : (OrderViewSet.destroy st orderId).2.orders = st1.orders := by
      rw [hres]
      exact (restockAll_fields _ _).2.1
    have hfind1 : st1.findOrder orderId
        = some { inst with status := "cancelled" } := by
      have hcomm := find?_map_of_pred st.orders
        (fun o => if o.id == orderId then { o with status := "cancelled" } else o)
        (fun o => o.id == orderId) ?side
      case side =>
        intro a
        by_cases h : a.id = orderId <;> simp [h]
      · have hid : inst.id = orderId := findOrder_id hord
        simp only [DBState.findOrder] at hord ⊢
        simp only [hcomm, hord, Option.map_some]
        simp [hid]
    refine ⟨by rw [hres], ?_, ?_, ?_⟩
    · have : (OrderViewSet.destroy st orderId).2.findOrder orderId
          = st1.findOrder orderId := by
        simp only [DBState.findOrder, horders]
      rw [this, hfind1]
    · intro sid
      rw [hres]
      have hpres1 : ∀ it ∈ (st.order_positions.filter
          (fun p => p.order == orderId)).map (fun p => (p.stock, p.quantity)),
          st1.findStock it.1 ≠ Option.none := by
        intro it hit
        rcases List.mem_map.mp hit with ⟨p, hp, rfl⟩
        have hp' : p ∈ st.orderPositionsOf orderId := by
          simpa [DBState.orderPositionsOf] using hp
        exact hpres p hp'
      have := stockQty_restockAll _ st1 sid hpres1
      rw [this]
      simp [DBState.orderPositionsOf, DBState.stockQty, DBState.findStock]
    · have hfind2 : (OrderViewSet.destroy st orderId).2.findOrder orderId
          = some { inst with status := "cancelled" } := by
        have : (OrderViewSet.destroy st orderId).2.findOrder orderId
            = st1.findOrder orderId := by
          simp only [DBState.findOrder, horders]
        rw [this, hfind1]
      rw [destroy_cancelled hfind2 rfl]
      simp

/-- Witness for C3: cancelling the saved two-line order 20 of the example
store succeeds, marks it cancelled, restocks stock 1 from 5 to 8 and stock 2
from 7 to 9, and a second cancel attempt fails. -/
theorem C3_cancel_order_witness :
    (OrderViewSet.destroy exState 20).1 = .ok ∧
    (OrderViewSet.destroy exState 20).2.findOrder 20
        = some { id := 20, purchaser := 1, chain_store := 1,
                 status := "cancelled" } ∧
    (OrderViewSet.destroy exState 20).2.stockQty 1 = 8 ∧
    (OrderViewSet.destroy exState 20).2.stockQty 2 = 9 ∧
    (OrderViewSet.destroy (OrderViewSet.destroy exState 20).2 20).1 ≠ .ok := by
  have h := (C3_cancel_order exState 20
      { id := 20, purchaser := 1, chain_store := 1, status := "saved" }
      (by decide) (by decide)).2.2 (by decide) (by decide)
  exact ⟨h.1, h.2.1, (h.2.2.1 1).trans (by decide),
    (h.2.2.1 2).trans (by decide), h.2.2.2⟩

/-- A found order-position row has the id it was looked up by. -/
theorem findOrderPosition_id {st : DBState} {pid : Nat} {p : OrderPosition}
    (h : st.findOrderPosition pid = some p) : p.id = pid := by
  have := List.find?_some h
  simpa using this

/-- `applyFlagOpt` never turns a true flag off. -/
theorem applyFlagOpt_mono {current b : Bool} {v : Option PyVal} {r i : String}
    (h : applyFlagOpt current v r i = .ok b) (hc : current = true) :
    b = true := by
  subst hc
  rcases v with _ | v
  · simpa [applyFlagOpt] using h
  · rcases v with n | bb | s | _
    · simp [applyFlagOpt, applyFlag] at h
    · cases bb
      · simp [applyFlagOpt, applyFlag] at h
      · simpa [applyFlagOpt, applyFlag] using h
    · simp [applyFlagOpt, applyFlag] at h
    · simp [applyFlagOpt, applyFlag] at h

/-- Looking up the updated position after the flag write-back. -/
theorem findOrderPosition_map_update {st : DBState} {posId : Nat}
    {inst : OrderPosition}
    (hpos : st.findOrderPosition posId = some inst) (nc nd : Bool) :
    (flagWriteBack st posId nc nd).findOrderPosition posId
      = some { inst with confirmed := nc, delivered := nd } := by
  have hcomm := find?_map_of_pred st.order_positions
      (fun p => if p.id == posId then
        { p with confirmed := nc, delivered := nd } else p)
      (fun p => p.id == posId) ?side
  case side =>
    intro a
    by_cases h : a.id = posId <;> simp [h]
  have hid : inst.id = posId := findOrderPosition_id hpos
  simp only [DBState.findOrderPosition, flagWriteBack] at hpos ⊢
  simp only [hcomm, hpos, Option.map_some]
  simp [hid]

/-- For a non-empty non-cancelled request, `OrderPositionViewSet.update`
reduces to the two `applyFlagOpt` passes followed by the write-back. -/
theorem OPU_characterization (st : DBState) (posId : Nat)
    (cv dv : Option PyVal) (inst : OrderPosition) (ord : Order)
    (hpos : st.findOrderPosition posId = some inst)
    (hord : st.findOrder inst.order = some ord)
    (hnn : ¬(cv = Option.none ∧ dv = Option.none))
    (hc : ord.status ≠ "cancelled") :
    OrderPositionViewSet.update st posId cv dv =
      match applyFlagOpt inst.confirmed cv
          "Your cannot revoke your confirmation" "Must be a valid boolean." with
      | .error m => (.rejected m, st)
      | .ok nc =>
        match applyFlagOpt inst.delivered dv
            "Your cannot revoke your delivery" "Must be a valid boolean." with
        | .error m => (.rejected m, st)
        | .ok nd => (.ok, flagWriteBack st posId nc nd) := by
  have hcb : (ord.status == "cancelled") = false := by simp [hc]
  rcases cv with _ | v <;> rcases dv with _ | w
  · exact absurd ⟨rfl, rfl⟩ hnn
  all_goals
    simp only [OrderPositionViewSet.update, hpos, hord, hcb, Bool.false_eq_true,
      if_false]

/-- C6: once an order position's confirmed (or delivered) flag is true, the
confirm/deliver operation can never make it false; the operation fails when
the parent order is cancelled and when a false value is sent over an
already-true flag; otherwise it turns exactly the requested flags true and
leaves every stock quantity unchanged. -/
theorem C6_monotonic_flags (st : DBState) (posId : Nat)
    (cv dv : Option PyVal) (inst : OrderPosition) (ord : Order)
    (hpos : st.findOrderPosition posId = some inst)
    (hord : st.findOrder inst.order = some ord) :
    (ord.status = "cancelled" →
      (OrderPositionViewSet.update st posId cv dv).1 ≠ .ok ∧
      (OrderPositionViewSet.update st posId cv dv).2 = st) ∧
    (cv = some (.pyBool false) → inst.confirmed = true →
      (OrderPositionViewSet.update st posId cv dv).1 ≠ .ok ∧
      (OrderPositionViewSet.update st posId cv dv).2 = st) ∧
    (dv = some (.pyBool false) → inst.delivered = true →
      (OrderPositionViewSet.update st posId cv dv).1 ≠ .ok ∧
      (OrderPositionViewSet.update st posId cv dv).2 = st) ∧
    ((OrderPositionViewSet.update st posId cv dv).2.stocks = st.stocks) ∧
    (∀ p, (OrderPositionViewSet.update st posId cv dv).2.findOrderPosition posId
        = some p →
      (inst.confirmed = true → p.confirmed = true) ∧
      (inst.delivered = true → p.delivered = true)) ∧
    (ord.status ≠ "cancelled" → ¬(cv = Option.none ∧ dv = Option.none) →
      (cv = Option.none ∨ cv = some (.pyBool true) ∨
        (cv = some (.pyBool false) ∧ inst.confirmed = false)) →
      (dv = Option.none ∨ dv = some (.pyBool true) ∨
        (dv = some (.pyBool false) ∧ inst.delivered = false)) →
      (OrderPositionViewSet.update st posId cv dv).1 = .ok ∧
      (OrderPositionViewSet.update st posId cv dv).2.findOrderPosition posId
        = some { inst with
            confirmed := inst.confirmed || cv == some (.pyBool true),
            delivered := inst.delivered || dv == some (.pyBool true) }) := by
  have hcancelA : ord.status = "cancelled" →
      (OrderPositionViewSet.update st posId cv dv).1 ≠ .ok ∧
      (OrderPositionViewSet.update st posId cv dv).2 = st := by
    intro hcanc
    have hcb : (ord.status == "cancelled") = true := by simp [hcanc]
    rcases cv with _ | v <;> rcases dv with _ | w
    · constructor <;> simp [OrderPositionViewSet.update]
    all_goals constructor <;>
      simp [OrderPositionViewSet.update, hpos, hord, hcb]
  refine ⟨hcancelA, ?_, ?_, ?_, ?_, ?_⟩
  · intro hcv hconf
    by_cases hcanc : ord.status = "cancelled"
    · exact hcancelA hcanc
    · have hchar := OPU_characterization st posId cv dv inst ord hpos hord
        (by rintro ⟨h1, _⟩; rw [hcv] at h1; cases h1) hcanc
      have hstep : applyFlagOpt inst.confirmed cv
          "Your cannot revoke your confirmation" "Must be a valid boolean."
          = .error "Your cannot revoke your confirmation" := by
        simp [hcv, applyFlagOpt, applyFlag, hconf]
      rw [hchar, hstep]
      simp
  · intro hdv hdel
    by_cases hcanc : ord.status = "cancelled"
    · exact hcancelA hcanc
    · have hchar := OPU_characterization st posId cv dv inst ord hpos hord
        (by rintro ⟨_, h2⟩; rw [hdv] at h2; cases h2) hcanc
      have hstep : applyFlagOpt inst.delivered dv
          "Your cannot revoke your delivery" "Must be a valid boolean."
          = .error "Your cannot revoke your delivery" := by
        simp [hdv, applyFlagOpt, applyFlag, hdel]
      rw [hchar, hstep]
      cases hcs : applyFlagOpt inst.confirmed cv
          "Your cannot revoke your confirmation" "Must be a valid boolean." with
      | error m => simp
      | ok nc => simp
  · unfold OrderPositionViewSet.update
    repeat' split
    all_goals rfl
  · intro p hp
    by_cases hboth : cv = Option.none ∧ dv = Option.none
    · rcases hboth with ⟨rfl, rfl⟩
      simp only [OrderPositionViewSet.update] at hp
      have hpi : inst = p := Option.some_inj.mp (hpos.symm.trans hp)
      subst hpi
      exact ⟨fun h => h, fun h => h⟩
    · by_cases hcanc : ord.status = "cancelled"
      · rw [(hcancelA hcanc).2] at hp
        have hpi : inst = p := Option.some_inj.mp (hpos.symm.trans hp)
        subst hpi
        exact ⟨fun h => h, fun h => h⟩
      · have hchar := OPU_characterization st posId cv dv inst ord hpos hord
          hboth hcanc
        cases hcs : applyFlagOpt inst.confirmed cv
            "Your cannot revoke your confirmation" "Must be a valid boolean." with
        | error m =>
          rw [hchar, hcs] at hp
          simp only at hp
          have hpi : inst = p := Option.some_inj.mp (hpos.symm.trans hp)
          subst hpi
          exact ⟨fun h => h, fun h => h⟩
        | ok nc =>
          cases hds : applyFlagOpt inst.delivered dv
              "Your cannot revoke your delivery" "Must be a valid boolean." with
          | error m =>
            rw [hchar, hcs, hds] at hp
            simp only at hp
            have hpi : inst = p := Option.some_inj.mp (hpos.symm.trans hp)
            subst hpi
            exact ⟨fun h => h, fun h => h⟩
          | ok nd =>
            rw [hchar, hcs, hds] at hp
            simp only at hp
            rw [findOrderPosition_map_update hpos nc nd] at hp
            have hpi : { inst with confirmed := nc, delivered := nd } = p :=
              Option.some_inj.mp hp
            rw [← hpi]
            exact ⟨fun h => applyFlagOpt_mono hcs h,
              fun h => applyFlagOpt_mono hds h⟩
  · intro hcanc hboth hcvs hdvs
    have hchar := OPU_characterization st posId cv dv inst ord hpos hord
      hboth hcanc
    have hcs : applyFlagOpt inst.confirmed cv
        "Your cannot revoke your confirmation" "Must be a valid boolean."
        = .ok (inst.confirmed || cv == some (.pyBool true)) := by
      rcases hcvs with rfl | rfl | ⟨rfl, hcf⟩
      · simp [applyFlagOpt]
      · simp [applyFlagOpt, applyFlag]
      · simp [applyFlagOpt, applyFlag, hcf]
    have hds : applyFlagOpt inst.delivered dv
        "Your cannot revoke your delivery" "Must be a valid boolean."
        = .ok (inst.delivered || dv == some (.pyBool true)) := by
      rcases hdvs with rfl | rfl | ⟨rfl, hdf⟩
      · simp [applyFlagOpt]
      · simp [applyFlagOpt, applyFlag]
      · simp [applyFlagOpt, applyFlag, hdf]
    rw [hchar, hcs, hds]
    exact ⟨rfl, findOrderPosition_map_update hpos _ _⟩

/-- Witness for C6: in the example store (order 20 saved, position 40
unconfirmed and undelivered) sending `confirmed := true` succeeds and turns
only the confirmed flag on. -/
theorem C6_monotonic_flags_witness :
    (OrderPositionViewSet.update exState 40 (some (.pyBool true))
        Option.none).1 = .ok ∧
    (OrderPositionViewSet.update exState 40 (some (.pyBool true))
        Option.none).2.findOrderPosition 40
      = some { id := 40, order := 20, stock := 1, quantity := 3, price := 10,
               confirmed := true, delivered := false } := by
  have h := (C6_monotonic_flags exState 40 (some (.pyBool true)) Option.none
      { id := 40, order := 20, stock := 1, quantity := 3, price := 10,
        confirmed := false, delivered := false }
      { id := 20, purchaser := 1, chain_store := 1, status := "saved" }
      (by decide) (by decide)).2.2.2.2.2
    (by decide) (by simp) (by simp) (by simp)
  exact ⟨h.1, by simpa using h.2⟩

/-- `find?` skips a prefix on which the predicate is everywhere false. -/
theorem find?_append_of_none {α : Type} (l₁ l₂ : List α) (p : α → Bool)
    (h : ∀ a ∈ l₁, p a = false) : (l₁ ++ l₂).find? p = l₂.find? p := by
  induction l₁ with
  | nil => rfl
  | cons x t ih =>
    simp only [List.cons_append, List.find?]
    rw [h x (List.mem_cons_self x t)]
    exact ih (fun a ha => h a (List.mem_cons_of_mem x ha))

/-- C5: placing an order fails when the purchaser's cart is empty and when
the chosen chain store belongs to another purchaser; on success it creates
an order with status saved, one order position per cart position copying
stock, quantity and frozen price verbatim, leaves every stock row untouched,
and deletes all of the purchaser's cart positions. -/
theorem C5_place_order (st : DBState) (purchaserId cartId chainStoreId : Nat)
    (cs : ChainStore)
    (hcs : st.findChainStore chainStoreId = some cs)
    (hofresh : ∀ o ∈ st.orders, o.id ≠ st.seq)
    (hpfresh : ∀ p ∈ st.order_positions, p.order ≠ st.seq) :
    (st.cart_positions.filter (fun p => p.shopping_cart == cartId) = [] →
      (OrderViewSet.create st purchaserId cartId chainStoreId).1 ≠ .ok ∧
      (OrderViewSet.create st purchaserId cartId chainStoreId).2 = st) ∧
    (cs.purchaser ≠ purchaserId →
      (OrderViewSet.create st purchaserId cartId chainStoreId).1 ≠ .ok ∧
      (OrderViewSet.create st purchaserId cartId chainStoreId).2 = st) ∧
    (st.cart_positions.filter (fun p => p.shopping_cart == cartId) ≠ [] →
      cs.purchaser = purchaserId →
      (OrderViewSet.create st purchaserId cartId chainStoreId).1 = .ok ∧
      (OrderViewSet.create st purchaserId cartId chainStoreId).2.findOrder st.seq
        = some { id := st.seq, purchaser := purchaserId,
                 chain_store := chainStoreId, status := "saved" } ∧
      ((OrderViewSet.create st purchaserId cartId chainStoreId).2.orderPositionsOf
          st.seq).map (fun p => (p.stock, p.quantity, p.price))
        = (st.cart_positions.filter (fun p => p.shopping_cart == cartId)).map
            (fun c => (c.stock, c.quantity, c.price)) ∧
      (∀ p ∈ (OrderViewSet.create st purchaserId cartId
          chainStoreId).2.orderPositionsOf st.seq,
        p.confirmed = false ∧ p.delivered = false) ∧
      (OrderViewSet.create st purchaserId cartId chainStoreId).2.stocks
        = st.stocks ∧
      (OrderViewSet.create st purchaserId cartId chainStoreId).2.cart_positions
        = st.cart_positions.filter (fun p => !(p.shopping_cart == cartId))) := by
  refine ⟨?_, ?_, ?_⟩
  · intro hempty
    constructor <;> simp [OrderViewSet.create, hempty]
  · intro hp
    by_cases hempty : st.cart_positions.filter
        (fun p => p.shopping_cart == cartId) = []
    · constructor <;> simp [OrderViewSet.create, hempty]
    · have hemp : (st.cart_positions.filter
          (fun p => p.shopping_cart == cartId)).isEmpty = false := by
        simpa [List.isEmpty_iff] using hempty
      have hneq : (cs.purchaser != purchaserId) = true := by simp [hp]
      constructor <;> simp [OrderViewSet.create, hemp, hcs, hneq]
  · intro hne hp
    have hemp : (st.cart_positions.filter
        (fun p => p.shopping_cart == cartId)).isEmpty = false := by
      simpa [List.isEmpty_iff] using hne
    have hneq : (cs.purchaser != purchaserId) = false := by simp [hp]
    have hres : OrderViewSet.create st purchaserId cartId chainStoreId
        = (.ok, { st with
            orders := st.orders ++
              [{ id := st.seq, purchaser := purchaserId,
                 chain_store := chainStoreId, status := "saved" }],
            order_positions := st.order_positions ++
              ((st.cart_positions.filter
                (fun p => p.shopping_cart == cartId)).enum.map (fun pi =>
                  { id := st.seq + 1 + pi.1, order := st.seq,
                    stock := pi.2.stock, quantity := pi.2.quantity,
                    price := pi.2.price, confirmed := false,
                    delivered := false : OrderPosition })),
            cart_positions := st.cart_positions.filter
              (fun p => !(p.shopping_cart == cartId)),
            seq := st.seq + 1 + (st.cart_positions.filter
              (fun p => p.shopping_cart == cartId)).length }) := by
      simp [OrderViewSet.create, hemp, hcs, hneq]
    have hposns : (OrderViewSet.create st purchaserId cartId
        chainStoreId).2.orderPositionsOf st.seq
        = (st.cart_positions.filter
            (fun p => p.shopping_cart == cartId)).enum.map (fun pi =>
              { id := st.seq + 1 + pi.1, order := st.seq,
                stock := pi.2.stock, quantity := pi.2.quantity,
                price := pi.2.price, confirmed := false,
                delivered := false : OrderPosition }) := by
      rw [hres]
      simp only [DBState.orderPositionsOf, List.filter_append]
      rw [List.filter_eq_nil_iff.mpr (by
        intro p hp'
        simpa using hpfresh p hp')]
      rw [List.nil_append, List.filter_eq_self.mpr (by
        intro p hp'
        rcases List.mem_map.mp hp' with ⟨pi, _, rfl⟩
        simp)]
    refine ⟨by rw [hres], ?_, ?_, ?_, by rw [hres], by rw [hres]⟩
    · rw [hres]
      simp only [DBState.findOrder]
      rw [find?_append_of_none _ _ _ (by
        intro o ho
        simpa using hofresh o ho)]
      simp
    · rw [hposns, List.map_map]
      have : ((fun p : OrderPosition => (p.stock, p.quantity, p.price)) ∘
          (fun pi : Nat × CartPosition =>
            { id := st.seq + 1 + pi.1, order := st.seq,
              stock := pi.2.stock, quantity := pi.2.quantity,
              price := pi.2.price, confirmed := false,
              delivered := false : OrderPosition }))
          = (fun c : CartPosition => (c.stock, c.quantity, c.price)) ∘
            Prod.snd := rfl
      rw [this, ← List.map_map]
      rw [List.enum_map_snd]
    · intro p hp'
      rw [hposns] at hp'
      rcases List.mem_map.mp hp' with ⟨pi, _, rfl⟩
      exact ⟨rfl, rfl⟩

/-- Witness for C5: in the example store purchaser 1 places an order to
chain store 1 from cart 1; the new order 100 is saved, copies the single
cart line (stock 1, quantity 2, frozen price 100) verbatim, the stocks table
is untouched and the cart is emptied. -/
theorem C5_place_order_witness :
    (OrderViewSet.create exState 1 1 1).1 = .ok ∧
    (OrderViewSet.create exState 1 1 1).2.findOrder 100
      = some { id := 100, purchaser := 1, chain_store := 1,
               status := "saved" } ∧
    ((OrderViewSet.create exState 1 1 1).2.orderPositionsOf 100).map
        (fun p => (p.stock, p.quantity, p.price))
      = [(1, 2, (100 : ℚ))] ∧
    (OrderViewSet.create exState 1 1 1).2.stocks = exState.stocks ∧
    (OrderViewSet.create exState 1 1 1).2.cart_positions = [] := by
  have h := (C5_place_order exState 1 1 1 { id := 1, purchaser := 1 }
      (by decide) (by decide) (by decide)).2.2 (by decide) rfl
  refine ⟨h.1, h.2.1, h.2.2.1.trans (by decide), h.2.2.2.2.1, ?_⟩
  rw [h.2.2.2.2.2]
  decide

/-- C2 (failing evaluation): increasing a cart line's quantity re-snapshots
the position's price from the stock.  In `exStateC2` position 30 froze price
10, stock 1 was later re-priced to 20; the quantity update 1 → 2 succeeds
and the stored position's price becomes 20 — the view writes
`request.data["price"] = stock.price` on the increasing branch and `price`
is a writable serializer field, contradicting price immutability. -/
theorem C2_price_resnapshot_bug :
    exStateC2.findCartPosition 30
      = some { id := 30, shopping_cart := 1, stock := 1,
               quantity := 1, price := 10 } ∧
    (CartPositionViewSet.update exStateC2 30 false false false
        (some (.pyInt 2))).1 = .ok ∧
    (CartPositionViewSet.update exStateC2 30 false false false
        (some (.pyInt 2))).2.findCartPosition 30
      = some { id := 30, shopping_cart := 1, stock := 1,
               quantity := 2, price := 20 } :=
  ⟨by decide, by decide, by decide⟩

/-- C2, decreasing side: a decrease of the quantity leaves the frozen price
in place (the re-snapshot happens only on the increasing branch). -/
theorem C2_price_decrease_keeps_price (st : DBState) (posId : Nat)
    (pos : CartPosition) (stock : Stock) (q : Int)
    (hpos : st.findCartPosition posId = some pos)
    (hst : st.findStock pos.stock = some stock)
    (hq : 0 < q) (hle : q ≤ (pos.quantity : Int)) :
    (CartPositionViewSet.update st posId false false false
        (some (.pyInt q))).2.findCartPosition posId
      = some { pos with quantity := q.toNat } := by
  have hlez : (PyVal.pyInt q).leZero = .ok false := by
    simp [PyVal.leZero]
    omega
  have hcond : (PyVal.pyInt q).toIntVal ≤ (pos.quantity : Int) := by
    simpa [PyVal.toIntVal] using hle
  have hres : CartPositionViewSet.update st posId false false false
      (some (.pyInt q))
      = (.ok, cartQuantityWriteBack
          (st.saveStock { stock with
            quantity := stock.quantity + (pos.quantity - q.toNat) })
          posId q.toNat) := by
    simp [CartPositionViewSet.update, hlez, PyVal.isIntType, hpos, hst,
      hcond, PyVal.toIntVal]
    intro hcontra
    exact absurd (by simpa [PyVal.toIntVal] using hcond) (not_le.mpr hcontra)
  rw [hres]
  exact findCartPosition_qWriteBack hpos q.toNat

/-- Witness for the decreasing-side price statement, on `exStateC2` with the
quantity lowered from 1 to 1 (the boundary `q = quantity` decrease): the
frozen price 10 survives. -/
theorem C2_price_decrease_keeps_price_witness :
    (CartPositionViewSet.update exStateC2 30 false false false
        (some (.pyInt 1))).2.findCartPosition 30
      = some { id := 30, shopping_cart := 1, stock := 1,
               quantity := (1 : Int).toNat, price := 10 } :=
  C2_price_decrease_keeps_price exStateC2 30
    { id := 30, shopping_cart := 1, stock := 1, quantity := 1, price := 10 }
    { id := 1, supplier := 1, price := 20, quantity := 5 }
    1 (by decide) (by decide) (by decide) (by decide)

/-- C9 (failing evaluation): a malformed string quantity is compared with
`0` before its type is checked, so `request.data["quantity"] <= 0` raises an
uncaught `TypeError` and the request dies with a 500 instead of the
documented structured validation failure; no state is changed. -/
theorem C9_string_quantity_crash :
    (CartPositionViewSet.create exState 1 (some 2) (.pyStr "1")).1
        = .exn "TypeError" ∧
    (CartPositionViewSet.create exState 1 (some 2) (.pyStr "1")).2
        = exState ∧
    (CartPositionViewSet.update exStateC2 30 false false false
        (some (.pyStr "2"))).1 = .exn "TypeError" ∧
    (CartPositionViewSet.update exStateC2 30 false false false
        (some (.pyStr "2"))).2 = exStateC2 :=
  ⟨by decide, by decide, by decide, by decide⟩

/-- C9, the handled side: a non-positive or float-typed quantity is rejected
with the structured validation reason and no state change. -/
theorem C9_validated_rejections (st : DBState) (cartId stockId posId : Nat) :
    ((CartPositionViewSet.create st cartId (some stockId) (.pyInt (-1))).1
          ≠ .ok →
      (CartPositionViewSet.create st cartId (some stockId) (.pyInt (-1))).2
          = st) ∧
    (CartPositionViewSet.update st posId false false false
        (some (.pyInt 0))).1
      = .rejected "Ensure this value is integer and greater than 0." ∧
    (CartPositionViewSet.update st posId false false false
        (some (.pyInt 0))).2 = st ∧
    (CartPositionViewSet.update st posId false false false
        (some (.pyBool true))).1
      = .rejected "Ensure this value is integer and greater than 0." := by
  refine ⟨?_, ?_, ?_, ?_⟩
  · intro h
    by_cases hdup : st.cart_positions.any
        (fun p => p.stock == stockId && p.shopping_cart == cartId)
    · simp [CartPositionViewSet.create, hdup, PyVal.truthy]
    · cases hst : st.findStock stockId with
      | none => simp [CartPositionViewSet.create, hdup, PyVal.truthy, hst]
      | some stock =>
        cases hsup : st.findSupplier stock.supplier with
        | none =>
          simp [CartPositionViewSet.create, hdup, PyVal.truthy, hst, hsup]
        | some sup =>
          by_cases hos : sup.order_status <;>
            simp [CartPositionViewSet.create, hdup, PyVal.truthy, hst, hsup,
              hos, PyVal.leZero, PyVal.isIntType]
  · simp [CartPositionViewSet.update, PyVal.leZero, PyVal.isIntType]
  · simp [CartPositionViewSet.update, PyVal.leZero, PyVal.isIntType]
  · simp [CartPositionViewSet.update, PyVal.leZero, PyVal.isIntType,
      applyFlag]

/-- Witness for the handled side of C9 on the example store. -/
theorem C9_validated_rejections_witness :
    (CartPositionViewSet.update exState 30 false false false
        (some (.pyInt 0))).1
      = .rejected "Ensure this value is integer and greater than 0." ∧
    (CartPositionViewSet.update exState 30 false false false
        (some (.pyInt 0))).2 = exState :=
  ⟨(C9_validated_rejections exState 1 2 30).2.1,
   (C9_validated_rejections exState 1 2 30).2.2.1⟩

/-- C8 (counterexample): an authenticated user whose role tag is `admin`
but who does not carry the superuser flag falls through every branch of
`StockViewSet.get_queryset`; the stock list — whose permission gate is just
`IsAuthenticated` — then renders a `None` queryset and fails with a server
error rather than returning a role-filtered subset. -/
theorem C8_admin_type_list_error :
    StockViewSet.list
        (some { id := 50, type := "admin", is_superuser := false }) exState
      = .serverError := by decide

/-- C8 (amended): unauthenticated list access is rejected with an
authentication error; authenticated purchasers, suppliers and superusers
get their role-filtered subset without error (role-gated lists answer
`forbidden` to excluded roles); but an `admin`-typed user without the
superuser flag gets a server error from the stock list. -/
theorem C8_list_reads_amended (st : DBState) (purchasers : List Purchaser)
    (u : AuthUser) :
    (StockViewSet.list Option.none st = .authError) ∧
    (PurchaserViewSet.list Option.none purchasers = .authError) ∧
    (u.is_superuser = true →
      StockViewSet.list (some u) st = .ok st.stocks ∧
      PurchaserViewSet.list (some u) purchasers = .ok purchasers) ∧
    (u.is_superuser = false → u.type = "purchaser" →
      (∃ items, StockViewSet.list (some u) st = .ok items ∧
        ∀ s, s ∈ items ↔ s ∈ st.stocks ∧
          (∃ sup, st.findSupplier s.supplier = some sup ∧
            sup.order_status = true) ∧ 0 < s.quantity) ∧
      (∃ items, PurchaserViewSet.list (some u) purchasers = .ok items ∧
        ∀ p, p ∈ items ↔ p ∈ purchasers ∧ p.user = u.id)) ∧
    (u.is_superuser = false → u.type = "supplier" →
      (∃ items, StockViewSet.list (some u) st = .ok items ∧
        ∀ s, s ∈ items ↔ s ∈ st.stocks ∧
          ∃ sup, st.findSupplier s.supplier = some sup ∧ sup.user = u.id) ∧
      PurchaserViewSet.list (some u) purchasers = .forbidden) ∧
    (u.is_superuser = false → u.type = "admin" →
      StockViewSet.list (some u) st = .serverError) := by
  refine ⟨by simp [StockViewSet.list],
    by simp [PurchaserViewSet.list], ?_, ?_, ?_, ?_⟩
  · intro hsu
    constructor
    · simp [StockViewSet.list, StockViewSet.get_queryset, hsu]
    · simp [PurchaserViewSet.list, PurchaserViewSet.get_queryset, hsu]
  · intro hsu htype
    constructor
    · refine ⟨st.stocks.filter (fun s =>
          (match st.findSupplier s.supplier with
           | some sup => sup.order_status
           | Option.none => false) && decide (0 < s.quantity)), ?_, ?_⟩
      · simp [StockViewSet.list, StockViewSet.get_queryset, hsu, htype]
      · intro s
        rw [List.mem_filter]
        cases hs : st.findSupplier s.supplier <;> simp [hs]
    · refine ⟨purchasers.filter (fun p => p.user == u.id), ?_, ?_⟩
      · simp [PurchaserViewSet.list, PurchaserViewSet.get_queryset, hsu, htype]
      · intro p
        rw [List.mem_filter]
        simp
  · intro hsu htype
    constructor
    · refine ⟨st.stocks.filter (fun s =>
          match st.findSupplier s.supplier with
          | some sup => sup.user == u.id
          | Option.none => false), ?_, ?_⟩
      · simp [StockViewSet.list, StockViewSet.get_queryset, hsu, htype]
      · intro s
        rw [List.mem_filter]
        cases hs : st.findSupplier s.supplier <;> simp [hs]
    · simp [PurchaserViewSet.list, PurchaserViewSet.get_queryset, hsu, htype]
  · intro hsu htype
    simp [StockViewSet.list, StockViewSet.get_queryset, hsu, htype]

/-- Witness for the amended C8 on the example store: a purchaser-typed user
sees exactly the in-stock listings of accepting suppliers (stocks 1, 2 and 4
but not stock 3, whose supplier stopped taking orders). -/
theorem C8_list_reads_amended_witness :
    StockViewSet.list
        (some { id := 60, type := "purchaser", is_superuser := false })
        exState
      ≠ .serverError ∧
    StockViewSet.list Option.none exState = .authError := by
  have h := C8_list_reads_amended exState []
      { id := 60, type := "purchaser", is_superuser := false }
  rcases (h.2.2.2.1 rfl rfl).1 with ⟨items, hitems, _⟩
  exact ⟨by rw [hitems]; simp, h.1⟩

/-- A row deleted by id cannot be found again. -/
theorem find?_filter_out_none (l : List CartPosition) (i : Nat) :
    (l.filter (fun p => !(p.id == i))).find? (fun p => p.id == i)
      = Option.none := by
  rw [List.find?_eq_none]
  intro p hp
  have h := (List.mem_filter.mp hp).2
  simp at h
  simp [h]

/-- C7: over any sequence of cart add/update/remove/clear operations, each
stock's on-hand quantity plus the quantity reserved by surviving cart
positions is conserved; removing a line returns its quantity to its stock
and deletes the row; clearing a cart deletes exactly its lines and returns
each line's quantity to its stock; and clearing after any operation run that
started with no cart positions and left lines in only the cleared cart
restores every stock quantity to its pre-cart-activity value. -/
theorem C7_conservation (st : DBState) (hwf : WF st) :
    (∀ ops sid, (runCartOps st ops).stockQty sid
        + (runCartOps st ops).reserved sid
        = st.stockQty sid + st.reserved sid) ∧
    (∀ posId pos, st.findCartPosition posId = some pos →
      (CartPositionViewSet.destroy st posId).1 = .ok ∧
      (CartPositionViewSet.destroy st posId).2.stockQty pos.stock
        = st.stockQty pos.stock + pos.quantity ∧
      (CartPositionViewSet.destroy st posId).2.findCartPosition posId
        = Option.none) ∧
    (∀ cartId,
      (ShoppingCartViewSet.destroy st cartId).1 = .ok ∧
      (ShoppingCartViewSet.destroy st cartId).2.cart_positions
        = st.cart_positions.filter (fun p => !(p.shopping_cart == cartId)) ∧
      (∀ sid, (ShoppingCartViewSet.destroy st cartId).2.stockQty sid
        = st.stockQty sid + qtySum (st.cart_positions.filter
            (fun p => p.shopping_cart == cartId)) sid)) ∧
    (st.cart_positions = [] →
      ∀ ops cartId,
        (∀ p ∈ (runCartOps st ops).cart_positions,
          p.shopping_cart = cartId) →
        ∀ sid,
          (ShoppingCartViewSet.destroy (runCartOps st ops)
            cartId).2.stockQty sid
          = st.stockQty sid) := by
  refine ⟨?_, ?_, ?_, ?_⟩
  · intro ops sid
    have h := (runCartOps_preserves ops st hwf).2 sid
    simpa [DBState.measureOf] using h
  · intro posId pos hpos
    have hmem : pos ∈ st.cart_positions := List.mem_of_find?_eq_some hpos
    have hsn := hwf.pos_stock pos hmem
    cases hstn : st.findStock pos.stock with
    | none => exact absurd hstn hsn
    | some stock =>
      have hres : CartPositionViewSet.destroy st posId
          = (.ok, cartRemoveState st posId stock pos.quantity) := by
        simp [CartPositionViewSet.destroy, hpos, hstn]
      have hsid0 : stock.id = pos.stock := findStock_id hstn
      refine ⟨by rw [hres], ?_, ?_⟩
      · rw [hres]
        have hsq : (cartRemoveState st posId stock pos.quantity).stockQty
            pos.stock
            = (st.saveStock { stock with
                quantity := stock.quantity + pos.quantity }).stockQty
                pos.stock := rfl
        rw [hsq]
        have hfind : st.findStock ({ stock with
            quantity := stock.quantity + pos.quantity } : Stock).id
            = some stock := by
          simpa [hsid0] using hstn
        have hself := stockQty_saveStock_self hfind
        simp only [] at hself
        rw [← hsid0]
        rw [hself]
        have hq0 : st.stockQty stock.id = stock.quantity := by
          simp [DBState.stockQty, hsid0, hstn]
        rw [hq0]
      · rw [hres]
        have hcp : (cartRemoveState st posId stock
            pos.quantity).findCartPosition posId
            = (st.cart_positions.filter
                (fun p => !(p.id == posId))).find?
                (fun p => p.id == posId) := rfl
        rw [hcp, find?_filter_out_none]
  · intro cartId
    have h := clear_spec st cartId hwf
    exact ⟨h.1, h.2.1, h.2.2.1⟩
  · intro hemp ops cartId hall sid
    obtain ⟨hwf1, hmeas⟩ := runCartOps_preserves ops st hwf
    have hclear := clear_spec (runCartOps st ops) cartId hwf1
    rw [hclear.2.2.1 sid]
    have hfilter : (runCartOps st ops).cart_positions.filter
        (fun p => p.shopping_cart == cartId)
        = (runCartOps st ops).cart_positions :=
      List.filter_eq_self.mpr (fun p hp => by simp [hall p hp])
    rw [hfilter]
    have h1 := hmeas sid
    simp only [DBState.measureOf] at h1
    have h2 : st.reserved sid = 0 := by
      simp [DBState.reserved, hemp, qtySum]
    have h3 : (runCartOps st ops).reserved sid
        = qtySum (runCartOps st ops).cart_positions sid := rfl
    rw [← h3]
    omega

/-- Witness for C7 on the example store: running an add of 3 units of stock
2 and then removing line 30 keeps, for each stock, on-hand plus reserved
constant; and on the empty-cart baseline store, adding 4 units of stock 1
and then clearing cart 1 restores stock 1 to its original quantity 5. -/
theorem C7_conservation_witness :
    ((runCartOps exState [CartOp.add 1 2 (.pyInt 3), CartOp.remove 30]).stockQty 1
        + (runCartOps exState
            [CartOp.add 1 2 (.pyInt 3), CartOp.remove 30]).reserved 1
      = exState.stockQty 1 + exState.reserved 1) ∧
    ((runCartOps exState [CartOp.add 1 2 (.pyInt 3), CartOp.remove 30]).stockQty 2
        + (runCartOps exState
            [CartOp.add 1 2 (.pyInt 3), CartOp.remove 30]).reserved 2
      = exState.stockQty 2 + exState.reserved 2) ∧
    (ShoppingCartViewSet.destroy
        (runCartOps exStateC7 [CartOp.add 1 1 (.pyInt 4)]) 1).2.stockQty 1
      = exStateC7.stockQty 1 := by
  have hwf : WF exState := ⟨by decide, by decide, by decide⟩
  have hwf7 : WF exStateC7 := ⟨by decide, by decide, by decide⟩
  have h := C7_conservation exState hwf
  have h7 := C7_conservation exStateC7 hwf7
  refine ⟨h.1 [CartOp.add 1 2 (.pyInt 3), CartOp.remove 30] 1,
    h.1 [CartOp.add 1 2 (.pyInt 3), CartOp.remove 30] 2,
    h7.2.2.2 (by decide) [CartOp.add 1 1 (.pyInt 4)] 1 (by decide) 1⟩

end ProcurementSupply
